import Mathlib

/-!
Verification development for the Test-Start-MCP policy engine
(`server/policy_store.py` and the preflight/token/gate portions of
`server/app.py`).

Shallow embedding conventions used throughout:

* JSON documents are modelled by the inductive `Json`.  JSON numbers are
  restricted to integers (the policy documents produced and consumed by the
  program only contain integers).
* Python values that are about to be serialized by `json.dumps` are modelled
  by `PyVal`; a dataclass instance appearing inside the structure is the
  `PyVal.capsObj` constructor, which `dumps` rejects exactly as `json.dumps`
  raises `TypeError` on a dataclass.
* `try/except` blocks are modelled with `Except Unit`; a caught exception is
  `Except.error ()`.
* Timestamps are integers.  `datetime.fromisoformat` is not re-implemented;
  the functions that consult it take a `parseIso : String -> Option Int`
  argument (`none` models a parse failure).  All parsed timestamps are
  treated as mutually comparable, matching the timezone-aware timestamps the
  system itself writes.
* Filesystem paths are strings; `Path.resolve()` is modelled by the lexical
  normalizer `resolveParts` (absolute paths, no symlinks).  File existence is
  supplied by an explicit `FS` value listing the files that exist.
* Byte strings are `List Nat` (each element < 256); SHA-256, HMAC-SHA256,
  base64url and UTF-8 are implemented concretely below, mirroring `hashlib`,
  `hmac` and `base64` as used by the source.
-/

namespace TSM

/-- JSON values (numbers restricted to integers, see the header note). -/
inductive Json where
  | null
  | bool (b : Bool)
  | num (n : Int)
  | str (s : String)
  | arr (xs : List Json)
  | obj (kvs : List (String × Json))
deriving Repr

mutual
/-- Boolean equality on `Json`. -/
def Json.beq : Json → Json → Bool
  | .null, .null => true
  | .bool a, .bool b => a == b
  | .num a, .num b => a == b
  | .str a, .str b => a == b
  | .arr a, .arr b => Json.beqList a b
  | .obj a, .obj b => Json.beqKvs a b
  | _, _ => false

def Json.beqList : List Json → List Json → Bool
  | [], [] => true
  | a :: as, b :: bs => Json.beq a b && Json.beqList as bs
  | _, _ => false

def Json.beqKvs : List (String × Json) → List (String × Json) → Bool
  | [], [] => true
  | (k1, v1) :: as, (k2, v2) :: bs => k1 == k2 && Json.beq v1 v2 && Json.beqKvs as bs
  | _, _ => false
end

instance : BEq Json := ⟨Json.beq⟩

mutual
theorem Json.beq_refl : (a : Json) → Json.beq a a = true
  | .null => rfl
  | .bool b => by simp [Json.beq]
  | .num n => by simp [Json.beq]
  | .str s => by simp [Json.beq]
  | .arr xs => by simp [Json.beq, Json.beqList_refl xs]
  | .obj kvs => by simp [Json.beq, Json.beqKvs_refl kvs]

theorem Json.beqList_refl : (xs : List Json) → Json.beqList xs xs = true
  | [] => rfl
  | a :: as => by simp [Json.beqList, Json.beq_refl a, Json.beqList_refl as]

theorem Json.beqKvs_refl : (kvs : List (String × Json)) → Json.beqKvs kvs kvs = true
  | [] => rfl
  | (k, v) :: as => by simp [Json.beqKvs, Json.beq_refl v, Json.beqKvs_refl as]
end

mutual
theorem Json.eq_of_beq : {a b : Json} → Json.beq a b = true → a = b
  | .null, .null, _ => rfl
  | .bool _, .bool _, h => by simpa [Json.beq] using congrArg Json.bool (by simpa [Json.beq] using h)
  | .num _, .num _, h => by simpa [Json.beq] using congrArg Json.num (by simpa [Json.beq] using h)
  | .str _, .str _, h => by simpa [Json.beq] using congrArg Json.str (by simpa [Json.beq] using h)
  | .arr as, .arr bs, h => congrArg Json.arr (Json.eqList_of_beq (by simpa [Json.beq] using h))
  | .obj as, .obj bs, h => congrArg Json.obj (Json.eqKvs_of_beq (by simpa [Json.beq] using h))

theorem Json.eqList_of_beq : {as bs : List Json} → Json.beqList as bs = true → as = bs
  | [], [], _ => rfl
  | a :: as, b :: bs, h => by
    have h1 : Json.beq a b = true := by
      have := h; simp [Json.beqList] at this; exact this.1
    have h2 : Json.beqList as bs = true := by
      have := h; simp [Json.beqList] at this; exact this.2
    rw [Json.eq_of_beq h1, Json.eqList_of_beq h2]

theorem Json.eqKvs_of_beq : {as bs : List (String × Json)} → Json.beqKvs as bs = true → as = bs
  | [], [], _ => rfl
  | (k1, v1) :: as, (k2, v2) :: bs, h => by
    have hh := h
    simp only [Json.beqKvs, Bool.and_eq_true, beq_iff_eq] at hh
    rw [hh.1.1, Json.eq_of_beq hh.1.2, Json.eqKvs_of_beq hh.2]
end

instance : LawfulBEq Json where
  eq_of_beq := Json.eq_of_beq
  rfl := Json.beq_refl _

instance : DecidableEq Json := fun a b =>
  decidable_of_iff (Json.beq a b = true) ⟨Json.eq_of_beq, fun h => h ▸ Json.beq_refl a⟩

/-- Dictionary lookup, `d.get(k)` on a parsed JSON object. -/
def jGet (kvs : List (String × Json)) (k : String) : Option Json :=
  (kvs.find? (fun p => p.1 == k)).map (·.2)

/-- `d.get(k, default)`. -/
def jGetD (kvs : List (String × Json)) (k : String) (d : Json) : Json :=
  (jGet kvs k).getD d

/-- Python truthiness of a JSON value (`if not d: ...`). -/
def pyFalsy : Json → Bool
  | .null => true
  | .bool b => !b
  | .num n => n == 0
  | .str s => s == ""
  | .arr xs => xs.isEmpty
  | .obj kvs => kvs.isEmpty

/-- Resource ceiling (`Caps` dataclass). -/
structure Caps where
  maxTimeoutMs : Int := 90000
  maxBytes : Int := 262144
  maxStdoutLines : Int := 1500
  concurrency : Int := 2
deriving Repr, DecidableEq

/-- Administrator rule (`Rule` dataclass, fields in declaration order). -/
structure Rule where
  id : String
  type : String
  path : Option String := none
  scopeRoot : Option String := none
  patterns : List String := []
  flagsAllowed : Option (List String) := none
  flagsDenied : Option (List String) := none
  caps : Option Caps := none
  conditions : Option Json := none
  ttlSec : Option Int := none
  label : Option String := none
  note : Option String := none
  createdBy : Option String := none
  createdAt : Option String := none
  expiresAt : Option String := none
deriving Repr, DecidableEq

/-- Session overlay (`Overlay` dataclass as it stands in `policy_store.py`:
only a session id, a profile name and an expiry). -/
structure Overlay where
  sessionId : String
  profile : String
  expiresAt : Option String := none
deriving Repr, DecidableEq

/-- Named profile: caps plus allowed flags. -/
structure Profile where
  caps : Caps
  flagsAllowed : List String
deriving Repr, DecidableEq

/-- Aggregate policy state.  Profiles are an association list standing for the
Python dict (keys unique, insertion order preserved). -/
structure PolicyState where
  version : Int := 1
  rules : List Rule := []
  overlays : List Overlay := []
  profiles : List (String × Profile) := []
deriving Repr, DecidableEq

/-- `PolicyState()`, the empty state. -/
def emptyState : PolicyState := {}

end TSM

namespace TSM

/-- Python values handed to `json.dumps`.  `capsObj` is a `Caps` dataclass
instance left unconverted inside the structure (as `save_state` does for
`r.__dict__` when `r.caps` is set); `json.dumps` raises `TypeError` on it. -/
inductive PyVal where
  | none
  | int (n : Int)
  | str (s : String)
  | bool (b : Bool)
  | list (xs : List PyVal)
  | dict (kvs : List (String × PyVal))
  | capsObj (c : Caps)
deriving Repr

mutual
/-- `json.dumps`, returning `Option.none` when serialization raises
(`TypeError` on a dataclass instance). -/
def dumps : PyVal → Option Json
  | .none => some .null
  | .int n => some (.num n)
  | .str s => some (.str s)
  | .bool b => some (.bool b)
  | .list xs => (dumpsList xs).map .arr
  | .dict kvs => (dumpsKvs kvs).map .obj
  | .capsObj _ => Option.none

def dumpsList : List PyVal → Option (List Json)
  | [] => some []
  | x :: xs => do pure ((← dumps x) :: (← dumpsList xs))

def dumpsKvs : List (String × PyVal) → Option (List (String × Json))
  | [] => some []
  | (k, v) :: kvs => do pure ((k, (← dumps v)) :: (← dumpsKvs kvs))
end

/-- A `Caps` instance as a dict (`c.__dict__`). -/
def capsDict (c : Caps) : PyVal :=
  .dict [("maxTimeoutMs", .int c.maxTimeoutMs), ("maxBytes", .int c.maxBytes),
         ("maxStdoutLines", .int c.maxStdoutLines), ("concurrency", .int c.concurrency)]

/-- Embed a JSON value back into `PyVal` (for pass-through fields such as
`conditions`). -/
def pyOfJson : Json → PyVal
  | .null => .none
  | .bool b => .bool b
  | .num n => .int n
  | .str s => .str s
  | .arr xs => .list (pyOfJsonList xs)
  | .obj kvs => .dict (pyOfJsonKvs kvs)
where
  pyOfJsonList : List Json → List PyVal
    | [] => []
    | x :: xs => pyOfJson x :: pyOfJsonList xs
  pyOfJsonKvs : List (String × Json) → List (String × PyVal)
    | [] => []
    | (k, v) :: kvs => (k, pyOfJson v) :: pyOfJsonKvs kvs

def pyOfOptStr : Option String → PyVal
  | Option.none => .none
  | some s => .str s

def pyOfOptInt : Option Int → PyVal
  | Option.none => .none
  | some n => .int n

/-- `r.__dict__` for a rule: every dataclass field, with `caps` left as the
raw dataclass instance (this is what `save_state` serializes). -/
def ruleDict (r : Rule) : PyVal :=
  .dict [("id", .str r.id), ("type", .str r.type),
         ("path", pyOfOptStr r.path), ("scopeRoot", pyOfOptStr r.scopeRoot),
         ("patterns", .list (r.patterns.map .str)),
         ("flagsAllowed", match r.flagsAllowed with
            | Option.none => .none | some l => .list (l.map .str)),
         ("flagsDenied", match r.flagsDenied with
            | Option.none => .none | some l => .list (l.map .str)),
         ("caps", match r.caps with
            | Option.none => .none | some c => .capsObj c),
         ("conditions", match r.conditions with
            | Option.none => .none | some j => pyOfJson j),
         ("ttlSec", pyOfOptInt r.ttlSec), ("label", pyOfOptStr r.label),
         ("note", pyOfOptStr r.note), ("createdBy", pyOfOptStr r.createdBy),
         ("createdAt", pyOfOptStr r.createdAt), ("expiresAt", pyOfOptStr r.expiresAt)]

/-- `o.__dict__` for an overlay. -/
def overlayDict (o : Overlay) : PyVal :=
  .dict [("sessionId", .str o.sessionId), ("profile", .str o.profile),
         ("expiresAt", pyOfOptStr o.expiresAt)]

/-- The `data` dict built by `save_state` (profiles get their caps converted
with `.__dict__`, rules do not). -/
def stateDict (st : PolicyState) : PyVal :=
  .dict [("version", .int st.version),
         ("rules", .list (st.rules.map ruleDict)),
         ("overlays", .list (st.overlays.map overlayDict)),
         ("profiles", .dict (st.profiles.map (fun p =>
            (p.1, PyVal.dict [("caps", capsDict p.2.caps),
                              ("flagsAllowed", .list (p.2.flagsAllowed.map .str))]))))]

/-- `save_state(fp, state)`: serialize and overwrite the file.  The function
swallows every exception, so when `json.dumps` fails the file keeps its old
content.  The file is modelled by its parsed content (`Option Json`; `none`
is a missing file). -/
def save_state (st : PolicyState) (oldFile : Option Json) : Option Json :=
  match dumps (stateDict st) with
  | some j => some j
  | Option.none => oldFile

end TSM

namespace TSM

/-- `str(x)` on a JSON value (faithful on strings, which is the only case the
round-tripping documents exercise; other cases follow Python's rendering of
scalars). -/
def pyStr : Json → String
  | .str s => s
  | .num n => toString n
  | .bool b => if b then "True" else "False"
  | .null => "None"
  | .arr _ => "[...]"
  | .obj _ => "{...}"

/-- Digit-fold helper for `strToInt?`. -/
def decDigitsGo : List Char → Nat → Option Nat
  | [], acc => some acc
  | c :: rest, acc =>
    if '0' ≤ c && c ≤ '9' then decDigitsGo rest (acc * 10 + (c.toNat - 48))
    else Option.none

/-- Minimal model of Python `int(str)`: optional minus sign and decimal
digits. -/
def strToInt? (s : String) : Option Int :=
  match s.data with
  | [] => Option.none
  | '-' :: rest =>
    (match rest with
     | [] => Option.none
     | _ => (decDigitsGo rest 0).map (fun n => -(n : Int)))
  | cs => (decDigitsGo cs 0).map (fun n => (n : Int))

/-- `int(x)`: identity on integers, `True`/`False` to 1/0, decimal strings
parsed, everything else a `TypeError`/`ValueError`. -/
def pyInt : Json → Except Unit Int
  | .num n => .ok n
  | .bool b => .ok (if b then 1 else 0)
  | .str s => match strToInt? s with
      | some n => .ok n
      | Option.none => .error ()
  | _ => .error ()

/-- Expect a JSON object (`x.get(...)` raises `AttributeError` otherwise). -/
def asObj : Json → Except Unit (List (String × Json))
  | .obj kvs => .ok kvs
  | _ => .error ()

/-- A nullable string field passed through unconverted.  The typed model
requires a string or null here (the dataclass annotation); other JSON values
would be carried opaquely by Python and are outside the modelled domain. -/
def asOptStr : Json → Except Unit (Option String)
  | .null => .ok Option.none
  | .str s => .ok (some s)
  | _ => .error ()

def asOptInt : Json → Except Unit (Option Int)
  | .null => .ok Option.none
  | .num n => .ok (some n)
  | _ => .error ()

def asStrList : Json → Except Unit (List String)
  | .arr xs => xs.mapM (fun j => match j with
      | .str s => .ok s
      | _ => .error ())
  | _ => .error ()

/-- `x or []` then list decode (`r.get('patterns') or []`). -/
def asStrListOrEmpty (j : Json) : Except Unit (List String) :=
  if pyFalsy j then .ok [] else asStrList j

/-- Optional list field passed through (`r.get('flagsAllowed')`): null stays
`None`, a list stays a list (possibly empty). -/
def asOptStrList : Json → Except Unit (Option (List String))
  | .null => .ok Option.none
  | j => (asStrList j).map some

/-- `_to_caps(d)`: falsy input gives `None`, otherwise the four fields are
read with defaults and converted with `int(...)`. -/
def toCaps (j : Json) : Except Unit (Option Caps) :=
  if pyFalsy j then .ok Option.none
  else do
    let kvs ← asObj j
    let t ← pyInt (jGetD kvs "maxTimeoutMs" (.num 90000))
    let b ← pyInt (jGetD kvs "maxBytes" (.num 262144))
    let l ← pyInt (jGetD kvs "maxStdoutLines" (.num 1500))
    let c ← pyInt (jGetD kvs "concurrency" (.num 2))
    .ok (some ⟨t, b, l, c⟩)

/-- Iterating `x` where each element must then support `.get`: lists iterate
their elements; an empty string or empty dict iterates to nothing; any other
value either is not iterable or yields non-dict elements, so the surrounding
`try` fails. -/
def pyIterObjs : Json → Except Unit (List Json)
  | .arr xs => .ok xs
  | .str s => if s == "" then .ok [] else .error ()
  | .obj kvs => if kvs.isEmpty then .ok [] else .error ()
  | _ => .error ()

/-- Decode one rule dict inside `load_state`. -/
def decodeRule (j : Json) : Except Unit Rule := do
  let r ← asObj j
  let caps ← toCaps (jGetD r "caps" .null)
  let patterns ← asStrListOrEmpty (jGetD r "patterns" .null)
  let path ← asOptStr (jGetD r "path" .null)
  let scopeRoot ← asOptStr (jGetD r "scopeRoot" .null)
  let flagsAllowed ← asOptStrList (jGetD r "flagsAllowed" .null)
  let flagsDenied ← asOptStrList (jGetD r "flagsDenied" .null)
  let conditions := jGet r "conditions"
  let ttlSec ← asOptInt (jGetD r "ttlSec" .null)
  let label ← asOptStr (jGetD r "label" .null)
  let note ← asOptStr (jGetD r "note" .null)
  let createdBy ← asOptStr (jGetD r "createdBy" .null)
  let createdAt ← asOptStr (jGetD r "createdAt" .null)
  let expiresAt ← asOptStr (jGetD r "expiresAt" .null)
  .ok { id := pyStr (jGetD r "id" (.str "")),
        type := pyStr (jGetD r "type" (.str "path")),
        path, scopeRoot, patterns, flagsAllowed, flagsDenied, caps,
        conditions := (conditions.map fun c => if c == .null then Option.none else some c).getD
          Option.none,
        ttlSec, label, note, createdBy, createdAt, expiresAt }

/-- Decode one overlay via `Overlay(**o)`: the keys must be exactly the
dataclass parameters (unknown keys raise `TypeError`, missing required ones
too). -/
def decodeOverlay (j : Json) : Except Unit Overlay := do
  let o ← asObj j
  let keys := o.map (·.1)
  if !(keys.all (fun k => k == "sessionId" || k == "profile" || k == "expiresAt")) then
    .error ()
  else if !(keys.contains "sessionId" && keys.contains "profile") then
    .error ()
  else do
    let sessionId ← match jGet o "sessionId" with
      | some (.str s) => .ok s
      | _ => .error ()
    let profile ← match jGet o "profile" with
      | some (.str s) => .ok s
      | _ => .error ()
    let expiresAt ← asOptStr (jGetD o "expiresAt" .null)
    .ok { sessionId, profile, expiresAt }

/-- Decode the profiles dict. -/
def decodeProfiles (j : Json) : Except Unit (List (String × Profile)) := do
  if pyFalsy j then .ok []
  else do
    let kvs ← asObj j
    kvs.mapM (fun p => do
      let pv ← asObj p.2
      let caps ← toCaps (jGetD pv "caps" .null)
      let flagsAllowed ← asStrListOrEmpty (jGetD pv "flagsAllowed" .null)
      .ok (p.1, { caps := caps.getD {}, flagsAllowed }))

/-- The body of `load_state`'s `try` block applied to the parsed document. -/
def decodeState (j : Json) : Except Unit PolicyState := do
  let raw ← asObj j
  let ruleJs ← pyIterObjs (jGetD raw "rules" (.arr []))
  let rules ← ruleJs.mapM decodeRule
  let overlayJs ← pyIterObjs (jGetD raw "overlays" (.arr []))
  let overlays ← overlayJs.mapM decodeOverlay
  let profiles ← decodeProfiles (jGetD raw "profiles" (.obj []))
  let version ← pyInt (jGetD raw "version" (.num 1))
  .ok { version, rules, overlays, profiles }

/-- Content of the policy file as seen by `load_state`. -/
inductive FileContent where
  | missing
  | invalidJson
  | json (j : Json)
deriving Repr

/-- `load_state(fp)`: missing file gives the empty state, any exception while
parsing or extracting gives the empty state. -/
def load_state : FileContent → PolicyState
  | .missing => emptyState
  | .invalidJson => emptyState
  | .json j =>
    match decodeState j with
    | .ok st => st
    | .error _ => emptyState

end TSM

namespace TSM

/-- Kernel-evaluable split of a character list on a separator
(`str.split(sep)` semantics: an empty string yields one empty part). -/
def splitOnSep (sep : Char) : List Char → List (List Char)
  | [] => [[]]
  | c :: rest =>
    if c == sep then [] :: splitOnSep sep rest
    else
      match splitOnSep sep rest with
      | g :: gs => (c :: g) :: gs
      | [] => [[c]]

/-- `s.split('/')` as strings. -/
def splitSlash (s : String) : List String :=
  (splitOnSep '/' s.data).map String.mk

/-- ASCII `str.lower()`. -/
def asciiLower (s : String) : String :=
  String.mk (s.data.map (fun c => if 'A' ≤ c && c ≤ 'Z' then Char.ofNat (c.toNat + 32) else c))

/-- `s.startswith('--')`. -/
def startsDashDash (s : String) : Bool :=
  match s.data with
  | '-' :: '-' :: _ => true
  | _ => false

/-- `s.endswith('Z')`. -/
def endsZ (s : String) : Bool :=
  match s.data.getLast? with
  | some c => c == 'Z'
  | Option.none => false

/-- Lexical model of `Path(s).resolve()`: split an absolute path into
segments, dropping empty segments and `.`, applying `..`.  (The model has no
symlinks and treats every input as absolute.) -/
def resolveParts (s : String) : List String :=
  (splitSlash s).foldl
    (fun acc seg =>
      if seg == "" || seg == "." then acc
      else if seg == ".." then acc.dropLast
      else acc ++ [seg]) []

/-- Render segments back to an absolute path string (`str(p)`). -/
def renderPath (parts : List String) : String :=
  "/" ++ String.intercalate "/" parts

/-- Segment-list prefix test. -/
def underSegs : List String → List String → Bool
  | [], _ => true
  | _ :: _, [] => false
  | a :: as, b :: bs => a == b && underSegs as bs

/-- `_is_under_root(p, root)`: `root.resolve() in p.resolve().parents or
p.resolve() == root.resolve()` — i.e. `root` is a (possibly equal) prefix. -/
def is_under_root (p root : List String) : Bool :=
  underSegs root p

/-- The filesystem as the set of existing regular files. -/
structure FS where
  files : List (List String)

def FS.isFile (fs : FS) (p : List String) : Bool := fs.files.contains p

/-- `str(p.relative_to(root))` for `p` under `root` (`"."` when equal). -/
def relStr (p root : List String) : String :=
  let segs := p.drop root.length
  if segs.isEmpty then "." else String.intercalate "/" segs

/-- `_parse_iso(s)`: falsy input gives `None`; a trailing `Z` becomes
`+00:00`; the library parse itself is the `parseIso` argument (`none` models
`fromisoformat` raising). -/
def parse_iso (parseIso : String → Option Int) : Option String → Option Int
  | Option.none => Option.none
  | some s =>
    if s == "" then Option.none
    else parseIso (if endsZ s then s.dropRight 1 ++ "+00:00" else s)

/-- Collect the members of a `[...]` character class: pairs are ranges,
singletons are stored as degenerate ranges.  Returns `none` on an unclosed
class (then `[` is literal, as in `fnmatch.translate`). -/
def classCollect : List Char → List (Char × Char) → Option (List (Char × Char) × List Char)
  | [], _ => Option.none
  | ']' :: rest, acc => some (acc.reverse, rest)
  | a :: '-' :: b :: rest, acc =>
      if b == ']' then some ((('-', '-') :: (a, a) :: acc).reverse, rest)
      else classCollect rest ((a, b) :: acc)
  | a :: rest, acc => classCollect rest ((a, a) :: acc)

/-- Parse a character class right after `[`: optional `!` negation, a leading
`]` is literal. -/
def parseClass (cs : List Char) : Option (Bool × List (Char × Char) × List Char) :=
  let (neg, cs1) : Bool × List Char :=
    match cs with
    | '!' :: r => (true, r)
    | _ => (false, cs)
  let start : List (Char × Char) × List Char → Bool × List (Char × Char) × List Char :=
    fun p => (neg, p.1, p.2)
  match cs1 with
  | ']' :: r => (classCollect r [(']', ']')]).map start
  | _ => (classCollect cs1 []).map start

def inClass (c : Char) (neg : Bool) (items : List (Char × Char)) : Bool :=
  let mem := items.any (fun ab => ab.1 ≤ c && c ≤ ab.2)
  if neg then !mem else mem

/-- Fuel-driven core of `fnmatch.fnmatch` (POSIX, so `normcase` is the
identity): `*` matches any sequence of characters including `/`, `?` any
single character, `[...]` a class.  The fuel argument only serves
termination; `fnmatchB` supplies enough for it never to run out. -/
def fnGo : Nat → List Char → List Char → Bool
  | 0, _, _ => false
  | _+1, [], [] => true
  | _+1, [], _ :: _ => false
  | f+1, '*' :: ps, s =>
      fnGo f ps s ||
      (match s with
       | [] => false
       | _ :: s2 => fnGo f ('*' :: ps) s2)
  | g+1, '?' :: ps, s =>
      (match s with
       | [] => false
       | _ :: s2 => fnGo g ps s2)
  | f+1, '[' :: ps, s =>
      (match parseClass ps with
       | some (neg, items, rest) =>
         (match s with
          | [] => false
          | c :: s2 => inClass c neg items && fnGo f rest s2)
       | Option.none =>
         (match s with
          | [] => false
          | c :: s2 => c == '[' && fnGo f ps s2))
  | f+1, p :: ps, s =>
      (match s with
       | [] => false
       | c :: s2 => p == c && fnGo f ps s2)

/-- `fnmatch.fnmatch(name, pat)`. -/
def fnmatchB (name pat : String) : Bool :=
  fnGo (pat.length + name.length + 1) pat.data name.data

end TSM

namespace TSM

/-- Advisory suggestion record. -/
structure Sugg where
  type : String
  value : String
  comment : String
deriving Repr, DecidableEq

/-- Result of `evaluate_preflight`.  `matchedRule` stands for the
`matched_rule_dict` copy in the source. -/
structure EvalResult where
  allowed : Bool
  matchedRule : Option Rule
  reasons : List String
  suggestions : List Sugg
deriving Repr, DecidableEq

/-- An overlay is unexpired: `exp is None or exp > now`. -/
def overlayUnexpired (parseIso : String → Option Int) (now : Int) (o : Overlay) : Bool :=
  match parse_iso parseIso o.expiresAt with
  | Option.none => true
  | some t => now < t

/-- The overlay loop shared by `evaluate_preflight` and `effective_caps_for`:
first overlay whose `sessionId` matches and which is unexpired. -/
def findOverlay (parseIso : String → Option Int) (now : Int)
    (overlays : List Overlay) (sid : String) : Option Overlay :=
  overlays.find? (fun o => o.sessionId == sid && overlayUnexpired parseIso now o)

/-- `rule_valid(r)` in `evaluate_preflight`: `exp is None or exp > now`. -/
def rule_valid (parseIso : String → Option Int) (now : Int) (r : Rule) : Bool :=
  match parse_iso parseIso r.expiresAt with
  | Option.none => true
  | some t => now < t

/-- The per-rule selector test of the matching loop (expiry handled
separately): exact resolved-path equality for `type='path'`, else
root-containment plus an `fnmatch` hit on the relative path for
`type='scope'`. -/
def ruleSelectorMatches (p : List String) (r : Rule) : Bool :=
  if r.type == "path" then
    match r.path with
    | some s => !(s == "") && (resolveParts s == p)
    | Option.none => false
  else if r.type == "scope" then
    match r.scopeRoot with
    | some sr =>
      !(sr == "") && !r.patterns.isEmpty &&
      (let root := resolveParts sr
       is_under_root p root && r.patterns.any (fun pat => fnmatchB (relStr p root) pat))
    | Option.none => false
  else false

/-- The rule-selection loop of `evaluate_preflight` (first match wins,
expired rules skipped). -/
def selectRule (parseIso : String → Option Int) (now : Int)
    (rules : List Rule) (p : List String) : Option Rule :=
  rules.find? (fun r => rule_valid parseIso now r && ruleSelectorMatches p r)

/-- The expiry test of the rule loop in `effective_caps_for`
(`exp is not None and exp <= now` skips the rule). -/
def caps_rule_alive (parseIso : String → Option Int) (now : Int) (r : Rule) : Bool :=
  match parse_iso parseIso r.expiresAt with
  | some t => !(t ≤ now)
  | Option.none => true

/-- The rule-selection loop of `effective_caps_for`. -/
def capsSelectRule (parseIso : String → Option Int) (now : Int)
    (rules : List Rule) (p : List String) : Option Rule :=
  rules.find? (fun r => caps_rule_alive parseIso now r && ruleSelectorMatches p r)

/-- The `effective_allowed_flags` computation of `evaluate_preflight`:
start from the global flags; intersect with the overlay profile's
`flagsAllowed` when a session overlay applies, its profile exists and the
list is nonempty; intersect with the matched rule's `flagsAllowed` when
truthy; remove the matched rule's `flagsDenied` when truthy. -/
def effectiveAllowedFlags (parseIso : String → Option Int) (now : Int)
    (flags_global : List String) (st : PolicyState) (session_id : Option String)
    (matched : Option Rule) : List String :=
  let eff0 := flags_global
  let eff1 :=
    match session_id with
    | Option.none => eff0
    | some sid =>
      if sid == "" then eff0
      else
        match findOverlay parseIso now st.overlays sid with
        | Option.none => eff0
        | some o =>
          match st.profiles.lookup o.profile with
          | Option.none => eff0
          | some prof =>
            if prof.flagsAllowed.isEmpty then eff0
            else eff0.filter (fun f => prof.flagsAllowed.contains f)
  match matched with
  | Option.none => eff1
  | some r =>
    let e1 :=
      match r.flagsAllowed with
      | some l => if l.isEmpty then eff1 else eff1.filter (fun f => l.contains f)
      | Option.none => eff1
    match r.flagsDenied with
    | some l => if l.isEmpty then e1 else e1.filter (fun f => !(l.contains f))
    | Option.none => e1

/-- `evaluate_preflight(path, args, session_id, agent_name, agent_version,
allowed_root, flags_global, state)`.  `agent_name`/`agent_version` are
accepted and unused, as in the source. -/
def evaluate_preflight (parseIso : String → Option Int) (now : Int) (fs : FS)
    (path : String) (args : List String) (session_id : Option String)
    (agent_name agent_version : Option String)
    (allowed_root : String) (flags_global : List String)
    (state : Option PolicyState) : EvalResult :=
  let _ := agent_name
  let _ := agent_version
  let st := state.getD emptyState
  let p := resolveParts path
  let reasons0 : List String :=
    (if !(is_under_root p (resolveParts allowed_root)) then ["outside_allowed_root"] else []) ++
    (if !(fs.isFile p) then ["path_not_found"] else [])
  let matched := selectRule parseIso now st.rules p
  let eff := effectiveAllowedFlags parseIso now flags_global st session_id matched
  let bad := args.filter (fun a => startsDashDash a && !(eff.contains a))
  let reasons :=
    reasons0 ++ (if bad.isEmpty then [] else ["disallowed_flags: " ++ String.intercalate "," bad])
  let suggestions : List Sugg :=
    [⟨"scope", renderPath p.dropLast, "Use project scope root"⟩,
     ⟨"pattern", (p.getLast?).getD "", "Use runner basename"⟩]
  { allowed := reasons.isEmpty, matchedRule := matched, reasons, suggestions }

/-- `min_or(a, b, default)`. -/
def minOr (a b : Option Int) (d : Int) : Int :=
  match a, b with
  | some x, some y => min x y
  | some x, Option.none => x
  | Option.none, some y => y
  | Option.none, Option.none => d

/-- The final merge of `effective_caps_for`: `None` when no caps present,
else field-wise minimum; the `or 1` on concurrency turns a merged 0 into 1. -/
def mergeCaps : Option Caps → Option Caps → Option Caps
  | Option.none, Option.none => Option.none
  | oc, rc =>
    let fb := oc.getD (rc.getD {})
    let conc := minOr (oc.map (·.concurrency)) (rc.map (·.concurrency)) fb.concurrency
    some { maxTimeoutMs := minOr (oc.map (·.maxTimeoutMs)) (rc.map (·.maxTimeoutMs)) fb.maxTimeoutMs,
           maxBytes := minOr (oc.map (·.maxBytes)) (rc.map (·.maxBytes)) fb.maxBytes,
           maxStdoutLines :=
             minOr (oc.map (·.maxStdoutLines)) (rc.map (·.maxStdoutLines)) fb.maxStdoutLines,
           concurrency := if conc == 0 then 1 else conc }

/-- `effective_caps_for(path, session_id, allowed_root, state)`. -/
def effective_caps_for (parseIso : String → Option Int) (now : Int)
    (path : String) (session_id : Option String) (allowed_root : String)
    (state : Option PolicyState) : Option Caps :=
  let st := state.getD emptyState
  let p := resolveParts path
  if !(is_under_root p (resolveParts allowed_root)) then Option.none
  else
    let overlay_caps : Option Caps :=
      match session_id with
      | Option.none => Option.none
      | some sid =>
        if sid == "" then Option.none
        else
          match findOverlay parseIso now st.overlays sid with
          | Option.none => Option.none
          | some o => (st.profiles.lookup o.profile).map (·.caps)
    let rule_caps : Option Caps :=
      match capsSelectRule parseIso now st.rules p with
      | some r => r.caps
      | Option.none => Option.none
    mergeCaps overlay_caps rule_caps

end TSM

namespace TSM

/-- UTF-8 encoding of one character. -/
def utf8Char (c : Char) : List Nat :=
  let v := c.toNat
  if v < 0x80 then [v]
  else if v < 0x800 then [0xC0 + v / 64, 0x80 + v % 64]
  else if v < 0x10000 then [0xE0 + v / 4096, 0x80 + (v / 64) % 64, 0x80 + v % 64]
  else [0xF0 + v / 262144, 0x80 + (v / 4096) % 64, 0x80 + (v / 64) % 64, 0x80 + v % 64]

/-- UTF-8 encoding of a character list. -/
def utf8Enc (cs : List Char) : List Nat :=
  cs.foldr (fun c acc => utf8Char c ++ acc) []

/-- `s.encode('utf-8')`. -/
def strBytes (s : String) : List Nat := utf8Enc s.data

/-- Continuation byte test (`0x80 <= b < 0xC0`). -/
def contByte (b : Nat) : Bool := 0x80 ≤ b && b < 0xC0

/-- Decode one UTF-8 character: leading byte plus remaining bytes, giving the
character and the remainder (`none` on malformed input). -/
def utf8DecChar (b1 : Nat) (rest : List Nat) : Option (Char × List Nat) :=
  if b1 < 0x80 then some (Char.ofNat b1, rest)
  else if b1 < 0xC0 then Option.none
  else if b1 < 0xE0 then
    if 1 ≤ rest.length && contByte (rest.getD 0 0) then
      some (Char.ofNat ((b1 - 0xC0) * 64 + (rest.getD 0 0 - 0x80)), rest.drop 1)
    else Option.none
  else if b1 < 0xF0 then
    if 2 ≤ rest.length && contByte (rest.getD 0 0) && contByte (rest.getD 1 0) then
      some (Char.ofNat (((b1 - 0xE0) * 64 + (rest.getD 0 0 - 0x80)) * 64 + (rest.getD 1 0 - 0x80)),
            rest.drop 2)
    else Option.none
  else if b1 < 0xF8 then
    if 3 ≤ rest.length && contByte (rest.getD 0 0) && contByte (rest.getD 1 0)
        && contByte (rest.getD 2 0) then
      some (Char.ofNat ((((b1 - 0xF0) * 64 + (rest.getD 0 0 - 0x80)) * 64
              + (rest.getD 1 0 - 0x80)) * 64 + (rest.getD 2 0 - 0x80)),
            rest.drop 3)
    else Option.none
  else Option.none

/-- Fuel-driven UTF-8 decoding loop (each step consumes at least one byte, so
`utf8Dec` supplies enough fuel). -/
def utf8DecGo : Nat → List Nat → Option (List Char)
  | 0, _ => Option.none
  | _+1, [] => some []
  | f+1, b1 :: rest =>
    match utf8DecChar b1 rest with
    | some pr => (utf8DecGo f pr.2).map (fun cs => pr.1 :: cs)
    | Option.none => Option.none

/-- UTF-8 decoding (`bytes.decode('utf-8')`), `none` on malformed input. -/
def utf8Dec (bs : List Nat) : Option (List Char) := utf8DecGo (bs.length + 1) bs

/-- 2^32, the word modulus of SHA-256 arithmetic. -/
def w32 : Nat := 4294967296

/-- Right rotation of a 32-bit word. -/
def rotr (n x : Nat) : Nat := ((x >>> n) ||| (x <<< (32 - n))) % w32

/-- SHA-256 round constants. -/
def shaK : List Nat :=
  [1116352408, 1899447441, 3049323471, 3921009573, 961987163, 1508970993, 2453635748, 2870763221,
   3624381080, 310598401, 607225278, 1426881987, 1925078388, 2162078206, 2614888103, 3248222580,
   3835390401, 4022224774, 264347078, 604807628, 770255983, 1249150122, 1555081692, 1996064986,
   2554220882, 2821834349, 2952996808, 3210313671, 3336571891, 3584528711, 113926993, 338241895,
   666307205, 773529912, 1294757372, 1396182291, 1695183700, 1986661051, 2177026350, 2456956037,
   2730485921, 2820302411, 3259730800, 3345764771, 3516065817, 3600352804, 4094571909, 275423344,
   430227734, 506948616, 659060556, 883997877, 958139571, 1322822218, 1537002063, 1747873779,
   1955562222, 2024104815, 2227730452, 2361852424, 2428436474, 2756734187, 3204031479, 3329325298]

/-- SHA-256 initial hash value. -/
def shaH0 : List Nat :=
  [1779033703, 3144134277, 1013904242, 2773480762, 1359893119, 2600822924, 528734635, 1541459225]

/-- Big-endian bytes of `n`, `k` bytes wide. -/
def beBytes : Nat → Nat → List Nat
  | 0, _ => []
  | k+1, n => beBytes k (n / 256) ++ [n % 256]

/-- Group bytes into 32-bit big-endian words (fuel-driven so the kernel can
evaluate it; the fuel never runs out for the lengths supplied). -/
def toWordsGo : Nat → List Nat → List Nat
  | 0, _ => []
  | _, [] => []
  | f+1, a :: b :: c :: d :: rest => (((a * 256 + b) * 256 + c) * 256 + d) :: toWordsGo f rest
  | _+1, [a] => [a]
  | _+1, [a, b] => [a * 256 + b]
  | _+1, [a, b, c] => [(a * 256 + b) * 256 + c]

def toWords (bs : List Nat) : List Nat := toWordsGo bs.length bs

/-- SHA-256 padding: append 0x80, zero bytes, then the 64-bit bit length. -/
def shaPad (msg : List Nat) : List Nat :=
  let len := msg.length
  let k := (120 - ((len + 1) % 64)) % 64
  msg ++ [0x80] ++ List.replicate k 0 ++ beBytes 8 (len * 8)

/-- Next message-schedule word computed from the previous ones (list is
reversed: head is the most recent word). -/
def wNext (wrev : List Nat) : Nat :=
  let g := fun k => wrev.getD k 0
  let s0 := (rotr 7 (g 14)) ^^^ (rotr 18 (g 14)) ^^^ ((g 14) >>> 3)
  let s1 := (rotr 17 (g 1)) ^^^ (rotr 19 (g 1)) ^^^ ((g 1) >>> 10)
  (g 15 + s0 + g 6 + s1) % w32

def extendW : Nat → List Nat → List Nat
  | 0, wrev => wrev
  | i+1, wrev => extendW i (wNext wrev :: wrev)

/-- One round of the SHA-256 compression function. -/
def round1 (st : List Nat) (wk : Nat × Nat) : List Nat :=
  match st with
  | [a, b, c, d, e, f, g, h] =>
    let s1 := (rotr 6 e) ^^^ (rotr 11 e) ^^^ (rotr 25 e)
    let ch := (e &&& f) ^^^ ((w32 - 1 - e) &&& g)
    let t1 := (h + s1 + ch + wk.2 + wk.1) % w32
    let s0 := (rotr 2 a) ^^^ (rotr 13 a) ^^^ (rotr 22 a)
    let mj := (a &&& b) ^^^ (a &&& c) ^^^ (b &&& c)
    let t2 := (s0 + mj) % w32
    [(t1 + t2) % w32, a, b, c, (d + t1) % w32, e, f, g]
  | st => st

/-- Compress one 64-byte block into the running hash. -/
def shaBlock (h : List Nat) (block : List Nat) : List Nat :=
  let w16 := toWords block
  let w := (extendW 48 w16.reverse).reverse
  let st := (w.zip shaK).foldl round1 h
  (h.zip st).map (fun p => (p.1 + p.2) % w32)

def chunksGo : Nat → List Nat → List (List Nat)
  | 0, _ => []
  | _, [] => []
  | f+1, xs => xs.take 64 :: chunksGo f (xs.drop 64)

/-- SHA-256 of a byte list, as a 32-byte list (`hashlib.sha256(m).digest()`). -/
def sha256 (msg : List Nat) : List Nat :=
  let blocks := chunksGo (msg.length + 1) (shaPad msg)
  let h := blocks.foldl shaBlock shaH0
  h.foldr (fun wd acc => beBytes 4 wd ++ acc) []

/-- `hmac.new(key, msg, hashlib.sha256).digest()`. -/
def hmacSha256 (key msg : List Nat) : List Nat :=
  let k0 := if key.length > 64 then sha256 key else key
  let k := k0 ++ List.replicate (64 - k0.length) 0
  let ipad := k.map (fun b => b ^^^ 0x36)
  let opad := k.map (fun b => b ^^^ 0x5c)
  sha256 (opad ++ sha256 (ipad ++ msg))

/-- The base64url value-to-character table. -/
def valToChar (v : Nat) : Char :=
  if v < 26 then Char.ofNat (65 + v)
  else if v < 52 then Char.ofNat (97 + (v - 26))
  else if v < 62 then Char.ofNat (48 + (v - 52))
  else if v == 62 then '-'
  else '_'

/-- Inverse table (`none` for a character outside the base64url alphabet). -/
def charToVal (c : Char) : Option Nat :=
  if 'A' ≤ c && c ≤ 'Z' then some (c.toNat - 65)
  else if 'a' ≤ c && c ≤ 'z' then some (c.toNat - 97 + 26)
  else if '0' ≤ c && c ≤ '9' then some (c.toNat - 48 + 52)
  else if c == '-' then some 62
  else if c == '_' then some 63
  else Option.none

/-- Unpadded base64url encoding as a character list. -/
def b64encGo : List Nat → List Char
  | [] => []
  | [a] => [valToChar (a / 4), valToChar ((a % 4) * 16)]
  | [a, b] => [valToChar (a / 4), valToChar ((a % 4) * 16 + b / 16), valToChar ((b % 16) * 4)]
  | a :: b :: c :: rest =>
    valToChar (a / 4) :: valToChar ((a % 4) * 16 + b / 16) ::
    valToChar ((b % 16) * 4 + c / 64) :: valToChar (c % 64) :: b64encGo rest

/-- `_b64url(data)`: `base64.urlsafe_b64encode(data).rstrip(b'=')`. -/
def b64url (bs : List Nat) : String := String.mk (b64encGo bs)

/-- Base64 decoding of a padded character stream (groups of four, `=` only at
the end). -/
def b64decGo : List Char → Option (List Nat)
  | [] => some []
  | a :: b :: c :: d :: rest =>
    if c == '=' && d == '=' && rest.isEmpty then do
      let va ← charToVal a
      let vb ← charToVal b
      some [va * 4 + vb / 16]
    else if d == '=' && rest.isEmpty then do
      let va ← charToVal a
      let vb ← charToVal b
      let vc ← charToVal c
      some [va * 4 + vb / 16, (vb % 16) * 16 + vc / 4]
    else do
      let va ← charToVal a
      let vb ← charToVal b
      let vc ← charToVal c
      let vd ← charToVal d
      let tail ← b64decGo rest
      some ((va * 4 + vb / 16) :: ((vb % 16) * 16 + vc / 4) :: ((vc % 4) * 64 + vd) :: tail)
  | _ => Option.none

/-- `_b64pad(s)` followed by `base64.urlsafe_b64decode`: re-pad with `=` to a
multiple of four and decode. -/
def b64padDecode (s : String) : Option (List Nat) :=
  b64decGo (s.data ++ List.replicate ((4 - s.length % 4) % 4) '=')

end TSM

namespace TSM

/-- Lowercase hex digit. -/
def hexDigitChar (d : Nat) : Char :=
  if d < 10 then Char.ofNat (48 + d) else Char.ofNat (87 + d)

/-- JSON string escaping as `json.dumps(..., ensure_ascii=False)` performs
it: backslash, quote, the short control escapes, `\u00xx` for the remaining
control characters, everything else verbatim. -/
def escChar (c : Char) : List Char :=
  if c == '"' then ['\\', '"']
  else if c == '\\' then ['\\', '\\']
  else if c == '\n' then ['\\', 'n']
  else if c == '\r' then ['\\', 'r']
  else if c == '\t' then ['\\', 't']
  else if c.toNat == 8 then ['\\', 'b']
  else if c.toNat == 12 then ['\\', 'f']
  else if c.toNat < 0x20 then
    ['\\', 'u', '0', '0', hexDigitChar (c.toNat / 16), hexDigitChar (c.toNat % 16)]
  else [c]

def escStr (s : String) : List Char :=
  s.data.foldr (fun c acc => escChar c ++ acc) []

/-- Hex digit value. -/
def hexVal (c : Char) : Option Nat :=
  if '0' ≤ c && c ≤ '9' then some (c.toNat - 48)
  else if 'a' ≤ c && c ≤ 'f' then some (c.toNat - 87)
  else if 'A' ≤ c && c ≤ 'F' then some (c.toNat - 55)
  else Option.none

/-- Short escape decodings (`\\n`, `\\t`, ...). -/
def escCode (e : Char) : Option Char :=
  if e == '"' then some '"'
  else if e == '\\' then some '\\'
  else if e == 'n' then some '\n'
  else if e == 'r' then some '\r'
  else if e == 't' then some '\t'
  else if e == 'b' then some (Char.ofNat 8)
  else if e == 'f' then some (Char.ofNat 12)
  else Option.none

/-- Fuel-driven scan of a JSON string body up to its closing quote,
unescaping; returns the decoded characters and the remainder after the
quote (`scanStr` supplies enough fuel). -/
def scanStrGo : Nat → List Char → Option (List Char × List Char)
  | 0, _ => Option.none
  | _+1, [] => Option.none
  | f+1, c :: rest =>
    if c == '"' then some ([], rest)
    else if c == '\\' then
      if rest.isEmpty then Option.none
      else
        let e := rest.getD 0 ' '
        if e == 'u' then
          if 5 ≤ rest.length then
            (hexVal (rest.getD 1 ' ')).bind fun v1 =>
            (hexVal (rest.getD 2 ' ')).bind fun v2 =>
            (hexVal (rest.getD 3 ' ')).bind fun v3 =>
            (hexVal (rest.getD 4 ' ')).bind fun v4 =>
            (scanStrGo f (rest.drop 5)).map fun p =>
              (Char.ofNat (((v1 * 16 + v2) * 16 + v3) * 16 + v4) :: p.1, p.2)
          else Option.none
        else
          (escCode e).bind fun ch =>
            (scanStrGo f (rest.drop 1)).map fun p => (ch :: p.1, p.2)
    else (scanStrGo f rest).map fun p => (c :: p.1, p.2)

/-- Scan a JSON string body up to its closing quote. -/
def scanStr (cs : List Char) : Option (List Char × List Char) :=
  scanStrGo (cs.length + 1) cs

def digitChar (d : Nat) : Char := Char.ofNat (48 + d)

/-- Decimal digits of a natural number, most significant first (fuel-driven;
`natStr` supplies enough fuel). -/
def natDigitsGo : Nat → Nat → List Char
  | 0, _ => []
  | f+1, n => if n < 10 then [digitChar n] else natDigitsGo f (n / 10) ++ [digitChar (n % 10)]

def natStr (n : Nat) : List Char := natDigitsGo (n + 1) n

/-- Decimal rendering of an integer, as `json.dumps` writes it. -/
def intStr (n : Int) : List Char :=
  if n < 0 then '-' :: natStr (-n).toNat else natStr n.toNat

def isDigit (c : Char) : Bool := 48 ≤ c.toNat && c.toNat ≤ 57

/-- Greedy digit parse, accumulating left-to-right. -/
def parseDigitsGo : List Char → Nat → Nat × List Char
  | [], acc => (acc, [])
  | c :: rest, acc =>
    if isDigit c then parseDigitsGo rest (acc * 10 + (c.toNat - 48)) else (acc, c :: rest)

/-- Parse an optionally signed decimal integer (at least one digit). -/
def parseIntChars : List Char → Option (Int × List Char)
  | [] => Option.none
  | c :: rest =>
    if c == '-' then
      match rest with
      | d :: _ =>
        if isDigit d then
          let p := parseDigitsGo rest 0
          some (-(p.1 : Int), p.2)
        else Option.none
      | [] => Option.none
    else if isDigit c then
      let p := parseDigitsGo (c :: rest) 0
      some ((p.1 : Int), p.2)
    else Option.none

/-- Consume an expected literal. -/
def dropLit : List Char → List Char → Option (List Char)
  | [], cs => some cs
  | _ :: _, [] => Option.none
  | l :: ls, c :: cs => if l == c then dropLit ls cs else Option.none

/-- Token payload (`{'p':…,'ah':…,'iat':…,'exp':…,'v':1}`). -/
structure Payload where
  p : String
  ah : String
  iat : Int
  exp : Int
deriving Repr, DecidableEq

/-- The payload dict serialized with
`json.dumps(obj, separators=(',', ':'), ensure_ascii=False)` (dict insertion
order `p`, `ah`, `iat`, `exp`, `v`). -/
def payloadChars (pl : Payload) : List Char :=
  "\x7b\"p\":\"".data ++ escStr pl.p ++ "\",\"ah\":\"".data ++ escStr pl.ah ++
  "\",\"iat\":".data ++ intStr pl.iat ++ ",\"exp\":".data ++ intStr pl.exp ++
  ",\"v\":1\x7d".data

/-- `json.loads` on the payload, modelled as a parser of the exact document
layout `make_preflight_token` serializes (the only payloads that reach this
point carry a valid signature). -/
def parsePayload (cs0 : List Char) : Option Payload := do
  let cs ← dropLit "\x7b\"p\":\"".data cs0
  let pp ← scanStr cs
  let cs ← dropLit ",\"ah\":\"".data pp.2
  let pa ← scanStr cs
  let cs ← dropLit ",\"iat\":".data pa.2
  let pi ← parseIntChars cs
  let cs ← dropLit ",\"exp\":".data pi.2
  let pe ← parseIntChars cs
  let cs ← dropLit ",\"v\":".data pe.2
  let pv ← parseIntChars cs
  let _ := pv.1
  let cs ← dropLit "\x7d".data pv.2
  if cs.isEmpty then some ⟨String.mk pp.1, String.mk pa.1, pi.1, pe.1⟩ else Option.none

/-- `_normalize_path(p)`: `str(Path(p).resolve())`. -/
def normalize_path (p : String) : String := renderPath (resolveParts p)

/-- `json.dumps(list(args), separators=(',', ':'), ensure_ascii=False)`. -/
def dumpsArgs (args : List String) : List Char :=
  '[' :: (String.intercalate "," (args.map (fun a => "\"" ++ String.mk (escStr a) ++ "\""))).data
    ++ [']']

/-- `_args_hash(args)`: base64url of the SHA-256 of the canonical JSON of the
argument list. -/
def args_hash (args : List String) : String :=
  b64url (sha256 (utf8Enc (dumpsArgs args)))

/-- The constant token header `{'alg':'HS256','typ':'JWT'}` serialized and
base64url-encoded. -/
def headerB64 : String :=
  b64url (strBytes "\x7b\"alg\":\"HS256\",\"typ\":\"JWT\"\x7d")

/-- Python `token.split('.')`. -/
def splitDot : List Char → List (List Char)
  | [] => [[]]
  | c :: rest =>
    if c == '.' then [] :: splitDot rest
    else
      match splitDot rest with
      | g :: gs => (c :: g) :: gs
      | [] => [[c]]

/-- Result dict of `verify_preflight_token`. -/
structure VerifyOut where
  ok : Bool
  reason : Option String := none
deriving Repr, DecidableEq

/-- `make_preflight_token(path, args)` (the process secret, current time and
configured TTL are explicit arguments).  Returns the token and the payload it
carries. -/
def make_preflight_token (secret : List Nat) (nowTs ttlSec : Int)
    (path : String) (args : List String) : String :=
  let pl : Payload := { p := normalize_path path, ah := args_hash args,
                        iat := nowTs, exp := nowTs + ttlSec }
  let payl_b64 := b64url (utf8Enc (payloadChars pl))
  let to_sign := strBytes (headerB64 ++ "." ++ payl_b64)
  let sig := hmacSha256 secret to_sign
  headerB64 ++ "." ++ payl_b64 ++ "." ++ b64url sig

/-- `verify_preflight_token(token, path, args)`. -/
def verify_preflight_token (secret : List Nat) (nowTs : Int)
    (token : Option String) (path : String) (args : List String) : VerifyOut :=
  match token with
  | Option.none => { ok := false, reason := some "missing" }
  | some t =>
    if t == "" then { ok := false, reason := some "missing" }
    else
      match splitDot t.data with
      | [hB, pB, sB] =>
        let to_sign := utf8Enc (hB ++ '.' :: pB)
        let want := (b64url (hmacSha256 secret to_sign)).data
        if !(want == sB) then { ok := false, reason := some "invalid" }
        else
          match b64padDecode (String.mk pB) with
          | Option.none => { ok := false, reason := some "invalid" }
          | some bytes =>
            match utf8Dec bytes with
            | Option.none => { ok := false, reason := some "invalid" }
            | some cs =>
              match parsePayload cs with
              | Option.none => { ok := false, reason := some "invalid" }
              | some pl =>
                if nowTs > pl.exp then { ok := false, reason := some "expired" }
                else if !(normalize_path path == pl.p) then
                  { ok := false, reason := some "mismatch" }
                else if !(args_hash args == pl.ah) then
                  { ok := false, reason := some "mismatch" }
                else { ok := true }
      | _ => { ok := false, reason := some "invalid" }

end TSM

namespace TSM

/-- Structured gate denial (`E_POLICY` dicts built by `_require_pref_ok` and
`_enforce_preflight`; the latter adds `adminLink`/`responseTemplate`). -/
structure GateError where
  error : String
  message : String
  adminLink : Option String := none
  responseTemplate : Option String := none
deriving Repr, DecidableEq

/-- Server-process environment of the gate: configuration, clock, secret and
the in-memory session-preflight cache. -/
structure GateEnv where
  requirePreflight : String := "0"
  secret : List Nat := []
  nowTs : Int := 0
  nowMs : Int := 0
  prefTtlSec : Int := 600
  prefCache : List (String × Int) := []
  host : String := "127.0.0.1"
  port : Int := 7060
  headerSession : Option String := none

/-- `TSM_REQUIRE_PREFLIGHT` parsed: `.lower() in ('1', 'true', 'yes')`. -/
def enforceOn (env : GateEnv) : Bool :=
  ["1", "true", "yes"].contains (asciiLower env.requirePreflight)

/-- `_pref_key(sess, path, args)`. -/
def pref_key (sess : Option String) (path : String) (args : List String) : Option String :=
  match sess with
  | Option.none => Option.none
  | some s =>
    if s == "" then Option.none
    else some (s ++ ":::" ++ renderPath (resolveParts path) ++ ":::" ++
               String.intercalate (String.singleton (Char.ofNat 1)) args)

/-- `_require_pref_ok(session_id, path, args)`: the legacy session-cache
check. -/
def require_pref_ok (env : GateEnv) (session_id : Option String)
    (path : String) (args : List String) : Option GateError :=
  if !enforceOn env then Option.none
  else
    match pref_key session_id path args with
    | Option.none =>
      some { error := "E_POLICY",
             message := "preflight_required: missing sessionId (X-TSM-Session)" }
    | some k =>
      match env.prefCache.lookup k with
      | Option.none => some { error := "E_POLICY", message := "preflight_required" }
      | some t =>
        if env.nowMs - t > env.prefTtlSec * 1000 then
          some { error := "E_POLICY", message := "preflight_expired" }
        else Option.none

/-- The admin URL embedded in gate denials. -/
def admin_link (env : GateEnv) (path : String) : String :=
  "http://" ++ env.host ++ ":" ++ toString env.port ++ "/admin/new?path=" ++ path

/-- `_enforce_preflight(request, path, args, preflight_token,
override_session_id)`: the execution gate.  Returns `none` when the request
may proceed. -/
def enforce_preflight (env : GateEnv) (path : String) (args : List String)
    (preflight_token : Option String) (override_session_id : Option String) :
    Option GateError :=
  if !enforceOn env then Option.none
  else
    let v := verify_preflight_token env.secret env.nowTs preflight_token path args
    if v.ok then Option.none
    else
      let session_id : Option String :=
        match override_session_id with
        | some s => if s == "" then env.headerSession else some s
        | Option.none => env.headerSession
      match require_pref_ok env session_id path args with
      | Option.none => Option.none
      | some errPref =>
        let link := admin_link env path
        let reason :=
          match preflight_token with
          | some t => if t == "" then errPref.message else (v.reason.getD "preflight_required")
          | Option.none => errPref.message
        some { error := "E_POLICY",
               message := "preflight_required: " ++ reason,
               adminLink := some link,
               responseTemplate := some
                 ("The pre-flight check is required before running this script. " ++
                  "Please open this URL and add a minimal, time-bound rule, then re-run " ++
                  "check_script to obtain a token:\n\n" ++ link ++
                  "\n\nOnce approved, call run_script again including the returned " ++
                  "preflight_token.") }

/-- The admission step of the `run_script` handler.  The handler has the
persisted `PolicyState` in scope (it loads it afterwards for capability
clamping), but the admission decision is exactly `_enforce_preflight`, which
never reads it; the state is an explicit argument here so that independence
can be stated. -/
def run_script_admission (env : GateEnv) (state : PolicyState) (path : String)
    (args : List String) (preflight_token : Option String)
    (body_session : Option String) : Option GateError :=
  let _ := state
  enforce_preflight env path args preflight_token body_session

end TSM

namespace TSM

/-- Modelled from the spec: the selector-aware `Overlay` of spec section 3.
The `Overlay` dataclass in `src/.../policy_store.py` carries no selector
fields, although `app.py`'s `/admin/session/profile` endpoint constructs
overlays with `path`, `scopeRoot`, `patterns`, `id` and `createdAt` keyword
arguments and the overlay-selector tests exercise them — the selector-aware
store version is missing from the sources, so its behavior is modelled here
from the spec's words. -/
structure OverlayS where
  id : String
  sessionId : String
  profile : String
  expiresAt : Option String := none
  path : Option String := none
  scopeRoot : Option String := none
  patterns : List String := []
deriving Repr, DecidableEq

/-- Modelled from the spec: an overlay is unexpired (`expiresAt` absent or in
the future). -/
def overlaySUnexpired (parseIso : String → Option Int) (now : Int) (o : OverlayS) : Bool :=
  match parse_iso parseIso o.expiresAt with
  | Option.none => true
  | some t => now < t

/-- Modelled from the spec: a `path` selector matches exactly the candidate
path. -/
def overlayPathSel (o : OverlayS) (p : List String) : Bool :=
  match o.path with
  | some s => resolveParts s == p
  | Option.none => false

/-- Modelled from the spec: a `scopeRoot`+`patterns` selector matches when
the candidate is under the root and the relative path matches one of the
glob patterns (the repository's glob primitive). -/
def overlayScopeSel (o : OverlayS) (p : List String) : Bool :=
  match o.scopeRoot with
  | some sr =>
    !o.patterns.isEmpty &&
    (let root := resolveParts sr
     is_under_root p root && o.patterns.any (fun pat => fnmatchB (relStr p root) pat))
  | Option.none => false

/-- Modelled from the spec: a session-wide overlay carries no selector. -/
def overlaySessionWide (o : OverlayS) : Bool :=
  o.path.isNone && o.scopeRoot.isNone

/-- Modelled from the spec (section 4.5 resolution order): among a session's
unexpired overlays prefer a matching `path` selector, then a matching
`scopeRoot`+`patterns` selector, then a session-wide overlay, else none. -/
def resolveOverlayS (parseIso : String → Option Int) (now : Int)
    (overlays : List OverlayS) (sid : String) (p : List String) : Option OverlayS :=
  let live := overlays.filter (fun o => o.sessionId == sid && overlaySUnexpired parseIso now o)
  match live.find? (fun o => overlayPathSel o p) with
  | some o => some o
  | Option.none =>
    match live.find? (fun o => overlayScopeSel o p) with
    | some o => some o
    | Option.none => live.find? (fun o => overlaySessionWide o)

/-- Modelled from the spec: the caps contributed by the resolved overlay
(its profile's caps, when the profile exists). -/
def overlaySCaps (parseIso : String → Option Int) (now : Int)
    (overlays : List OverlayS) (profiles : List (String × Profile))
    (sid : String) (p : List String) : Option Caps :=
  match resolveOverlayS parseIso now overlays sid p with
  | some o => (profiles.lookup o.profile).map (·.caps)
  | Option.none => Option.none

end TSM

namespace TSM

/-- Single-segment glob match (no `/` inside a segment, so the repository's
matcher restricted to one segment is exactly "`*` within a segment"). -/
def segMatch (seg pat : String) : Bool := fnmatchB seg pat

/-- Segment-aware glob semantics as the spec words them: the pattern is split
on `/`; `**` spans whole segments, every other pattern segment must match a
single path segment.  This is the comparison definition for the claimed
pattern semantics, written from the spec, not from the code. -/
def segGlobGo : Nat → List String → List String → Bool
  | 0, _, _ => false
  | _+1, [], [] => true
  | _+1, [], _ :: _ => false
  | f+1, "**" :: ps, segs =>
      segGlobGo f ps segs ||
      (match segs with
       | [] => false
       | _ :: s2 => segGlobGo f ("**" :: ps) s2)
  | f+1, pat :: ps, segs =>
      (match segs with
       | [] => false
       | seg :: s2 => segMatch seg pat && segGlobGo f ps s2)

/-- Segment-aware relative-path glob match (spec semantics). -/
def segGlobMatch (rel : String) (pat : String) : Bool :=
  let ps := splitSlash pat
  let ss := splitSlash rel
  segGlobGo (ps.length + ss.length + 1) ps ss

end TSM

namespace TSM

/-- A concrete expired rule used in the C6 witness. -/
def ruleExpired : Rule :=
  { id := "r-exp", type := "path", path := some "/allowed/run.sh", expiresAt := some "5" }

/-- The state used to exhibit the C1 persistence failure: one rule carrying
caps. -/
def stRuleCaps : PolicyState :=
  { rules := [{ id := "r1", type := "path", path := some "/a/run.sh", caps := some {} }] }

/-- The overlay-caps section of `effective_caps_for` as a standalone
function. -/
def overlay_caps_for (parseIso : String → Option Int) (now : Int) (st : PolicyState)
    (session_id : Option String) : Option Caps :=
  match session_id with
  | Option.none => Option.none
  | some sid =>
    if sid == "" then Option.none
    else
      match findOverlay parseIso now st.overlays sid with
      | Option.none => Option.none
      | some o => (st.profiles.lookup o.profile).map (·.caps)

/-- The rule-caps section of `effective_caps_for` as a standalone function. -/
def rule_caps_for (parseIso : String → Option Int) (now : Int) (st : PolicyState)
    (p : List String) : Option Caps :=
  match capsSelectRule parseIso now st.rules p with
  | some r => r.caps
  | Option.none => Option.none

/-- The rule used in the C9 counterexample: its caps set `concurrency = 0`. -/
def ruleConcZero : Rule :=
  { id := "r0", type := "path", path := some "/a/run.sh", caps := some { concurrency := 0 } }

/-- The scope rule of the C8 counterexample. -/
def ruleStarSh : Rule :=
  { id := "r1", type := "scope", scopeRoot := some "/proj", patterns := ["*.sh"] }

/-- The state of the C7 counterexample: an applicable session overlay whose
profile has an empty `flagsAllowed` list. -/
def stEmptyProfileFlags : PolicyState :=
  { overlays := [{ sessionId := "s", profile := "p0" }],
    profiles := [("p0", { caps := {}, flagsAllowed := [] })] }

/-- The overlay-profile narrowing list actually applied by
`evaluate_preflight`: present only when the session is truthy, an unexpired
overlay is found, its profile exists and its `flagsAllowed` is nonempty. -/
def overlayFlagsNarrow (parseIso : String → Option Int) (now : Int) (st : PolicyState)
    (session_id : Option String) : Option (List String) :=
  match session_id with
  | Option.none => Option.none
  | some sid =>
    if sid == "" then Option.none
    else
      match findOverlay parseIso now st.overlays sid with
      | Option.none => Option.none
      | some o =>
        match st.profiles.lookup o.profile with
        | Option.none => Option.none
        | some prof => if prof.flagsAllowed.isEmpty then Option.none else some prof.flagsAllowed

/-- The rule `flagsAllowed` narrowing actually applied (nonempty lists
only). -/
def ruleFlagsNarrow : Option Rule → Option (List String)
  | some r =>
    (match r.flagsAllowed with
     | some l => if l.isEmpty then Option.none else some l
     | Option.none => Option.none)
  | Option.none => Option.none

/-- The rule `flagsDenied` subtraction actually applied (nonempty lists
only). -/
def ruleFlagsDeny : Option Rule → Option (List String)
  | some r =>
    (match r.flagsDenied with
     | some l => if l.isEmpty then Option.none else some l
     | Option.none => Option.none)
  | Option.none => Option.none

/-- The session/overlay narrowing stage of `effectiveAllowedFlags` (`eff1` in
the source), split out for reasoning. -/
def eff1Def (parseIso : String → Option Int) (now : Int) (flags_global : List String)
    (st : PolicyState) (session_id : Option String) : List String :=
  match session_id with
  | Option.none => flags_global
  | some sid =>
    if sid == "" then flags_global
    else
      match findOverlay parseIso now st.overlays sid with
      | Option.none => flags_global
      | some o =>
        match st.profiles.lookup o.profile with
        | Option.none => flags_global
        | some prof =>
          if prof.flagsAllowed.isEmpty then flags_global
          else flags_global.filter (fun f => prof.flagsAllowed.contains f)

/-- The matched-rule narrowing stage of `effectiveAllowedFlags`, split out for
reasoning. -/
def ruleApply (matched : Option Rule) (eff1 : List String) : List String :=
  match matched with
  | Option.none => eff1
  | some r =>
    let e1 :=
      match r.flagsAllowed with
      | some l => if l.isEmpty then eff1 else eff1.filter (fun f => l.contains f)
      | Option.none => eff1
    match r.flagsDenied with
    | some l => if l.isEmpty then e1 else e1.filter (fun f => !(l.contains f))
    | Option.none => e1

/-- Tight caps for the path-specific profile of the P7 scenario. -/
def capsTight : Caps :=
  { maxTimeoutMs := 5000, maxBytes := 1000, maxStdoutLines := 10, concurrency := 1 }

/-- Generous caps for the session-wide profile of the P7 scenario. -/
def capsWide : Caps :=
  { maxTimeoutMs := 60000, maxBytes := 500000, maxStdoutLines := 2000, concurrency := 4 }

/-- P7 profiles: `A` generous, `B` tight. -/
def profsAB : List (String × Profile) :=
  [("A", { caps := capsWide, flagsAllowed := [] }),
   ("B", { caps := capsTight, flagsAllowed := [] })]

/-- P7 path-specific overlay: profile `B`, selector on `/proj/x.sh`. -/
def oPathB : OverlayS :=
  { id := "o1", sessionId := "s", profile := "B", path := some "/proj/x.sh" }

/-- P7 session-wide overlay: profile `A`, no selector. -/
def oWideA : OverlayS := { id := "o2", sessionId := "s", profile := "A" }

/-- The session id the gate falls back on: the override when nonempty, else
the `X-TSM-Session` header. -/
def session_id_of (env : GateEnv) (override_session_id : Option String) : Option String :=
  match override_session_id with
  | some s => if s == "" then env.headerSession else some s
  | Option.none => env.headerSession

/-- Concrete gate environment: enforcement on, one fresh session-cache
entry. -/
def envC5W : GateEnv :=
  { requirePreflight := "1", nowMs := 10, prefTtlSec := 600,
    prefCache := [("s:::/a:::", 5)] }

end TSM

namespace TSM


theorem charToVal_valToChar {v : Nat} (h : v < 64) : charToVal (valToChar v) = some v := by
  revert h
  revert v
  decide

theorem valToChar_ne_dot (v : Nat) : valToChar v ≠ '.' := by
  by_cases h : v < 64
  · revert h; revert v; decide
  · have hv : valToChar v = '_' := by
      unfold valToChar
      rw [if_neg (by omega), if_neg (by omega), if_neg (by omega),
          if_neg (by simp; omega)]
    rw [hv]
    decide

theorem valToChar_ne_eq (v : Nat) : valToChar v ≠ '=' := by
  by_cases h : v < 64
  · revert h; revert v; decide
  · have hv : valToChar v = '_' := by
      unfold valToChar
      rw [if_neg (by omega), if_neg (by omega), if_neg (by omega),
          if_neg (by simp; omega)]
    rw [hv]
    decide

theorem b64enc_no_dot : (bs : List Nat) → '.' ∉ b64encGo bs
  | [] => by simp [b64encGo]
  | [a] => by
      simp only [b64encGo, List.mem_cons, List.not_mem_nil, or_false]
      push_neg
      exact ⟨fun h => (valToChar_ne_dot _) h.symm, fun h => (valToChar_ne_dot _) h.symm⟩
  | [a, b] => by
      simp only [b64encGo, List.mem_cons, List.not_mem_nil, or_false]
      push_neg
      exact ⟨fun h => (valToChar_ne_dot _) h.symm, fun h => (valToChar_ne_dot _) h.symm,
             fun h => (valToChar_ne_dot _) h.symm⟩
  | a :: b :: c :: rest => by
      simp only [b64encGo, List.mem_cons]
      push_neg
      exact ⟨fun h => (valToChar_ne_dot _) h.symm, fun h => (valToChar_ne_dot _) h.symm,
             fun h => (valToChar_ne_dot _) h.symm, fun h => (valToChar_ne_dot _) h.symm,
             b64enc_no_dot rest⟩

theorem b64_roundtrip : (bs : List Nat) → (∀ x ∈ bs, x < 256) →
    b64decGo (b64encGo bs ++ List.replicate ((4 - (b64encGo bs).length % 4) % 4) '=') = some bs
  | [], _ => by simp [b64encGo, b64decGo]
  | [a], hb => by
    have ha : a < 256 := hb a (by simp)
    have h1 : charToVal (valToChar (a / 4)) = some (a / 4) := charToVal_valToChar (by omega)
    have h2 : charToVal (valToChar ((a % 4) * 16)) = some ((a % 4) * 16) :=
      charToVal_valToChar (by omega)
    show b64decGo ([valToChar (a / 4), valToChar ((a % 4) * 16)] ++
        List.replicate ((4 - 2 % 4) % 4) '=') = some [a]
    norm_num [b64decGo, h1, h2]
    omega
  | [a, b], hb => by
    have ha : a < 256 := hb a (by simp)
    have hbb : b < 256 := hb b (by simp)
    have h1 : charToVal (valToChar (a / 4)) = some (a / 4) := charToVal_valToChar (by omega)
    have h2 : charToVal (valToChar ((a % 4) * 16 + b / 16)) = some ((a % 4) * 16 + b / 16) :=
      charToVal_valToChar (by omega)
    have h3 : charToVal (valToChar ((b % 16) * 4)) = some ((b % 16) * 4) :=
      charToVal_valToChar (by omega)
    show b64decGo ([valToChar (a / 4), valToChar ((a % 4) * 16 + b / 16),
        valToChar ((b % 16) * 4)] ++ List.replicate ((4 - 3 % 4) % 4) '=') = some [a, b]
    have hne : valToChar ((b % 16) * 4) ≠ '=' := valToChar_ne_eq _
    norm_num [b64decGo, h1, h2, h3, hne]
    constructor
    · omega
    · omega
  | a :: b :: c :: rest, hb => by
    have ha : a < 256 := hb a (by simp)
    have hbb : b < 256 := hb b (by simp)
    have hc : c < 256 := hb c (by simp)
    have h1 : charToVal (valToChar (a / 4)) = some (a / 4) := charToVal_valToChar (by omega)
    have h2 : charToVal (valToChar ((a % 4) * 16 + b / 16)) = some ((a % 4) * 16 + b / 16) :=
      charToVal_valToChar (by omega)
    have h3 : charToVal (valToChar ((b % 16) * 4 + c / 64)) = some ((b % 16) * 4 + c / 64) :=
      charToVal_valToChar (by omega)
    have h4 : charToVal (valToChar (c % 64)) = some (c % 64) := charToVal_valToChar (by omega)
    have ih := b64_roundtrip rest (fun x hx => hb x (by simp [hx]))
    have hlen : (4 - (b64encGo (a :: b :: c :: rest)).length % 4) % 4
        = (4 - (b64encGo rest).length % 4) % 4 := by
      simp only [b64encGo, List.length_cons]
      omega
    rw [hlen]
    show b64decGo ((valToChar (a / 4) :: valToChar ((a % 4) * 16 + b / 16) ::
        valToChar ((b % 16) * 4 + c / 64) :: valToChar (c % 64) :: b64encGo rest) ++
        List.replicate ((4 - (b64encGo rest).length % 4) % 4) '=') = some (a :: b :: c :: rest)
    have hne3 : (valToChar ((b % 16) * 4 + c / 64) == '=') = false := by
      simp [valToChar_ne_eq]
    have hne4 : (valToChar (c % 64) == '=') = false := by
      simp [valToChar_ne_eq]
    simp only [List.cons_append, b64decGo, hne3, hne4, Bool.false_and, Bool.and_false,
      Bool.false_eq_true, if_false, h1, h2, h3, h4, Option.bind_eq_bind, Option.some_bind]
    rw [show (b64encGo rest).append
        (List.replicate ((4 - (b64encGo rest).length % 4) % 4) '=')
        = b64encGo rest ++ List.replicate ((4 - (b64encGo rest).length % 4) % 4) '=' from rfl,
      ih]
    simp only [Option.some_bind, Option.some.injEq, List.cons.injEq, and_true]
    refine ⟨by omega, by omega, by omega⟩

theorem b64padDecode_b64url (bs : List Nat) (hb : ∀ x ∈ bs, x < 256) :
    b64padDecode (b64url bs) = some bs := by
  unfold b64padDecode b64url
  exact b64_roundtrip bs hb

theorem char_toNat_lt (c : Char) : c.toNat < 1114112 := by
  have h := c.valid
  unfold UInt32.isValidChar Nat.isValidChar at h
  have h2 : c.toNat = c.val.toNat := rfl
  rcases h with h | h
  · omega
  · omega

theorem utf8Char_lt256 (c : Char) : ∀ x ∈ utf8Char c, x < 256 := by
  have hv := char_toNat_lt c
  unfold utf8Char
  by_cases h1 : c.toNat < 0x80
  · simp only [if_pos h1]
    intro x hx
    simp at hx
    omega
  · by_cases h2 : c.toNat < 0x800
    · simp only [if_neg h1, if_pos h2]
      intro x hx
      simp at hx
      rcases hx with h | h <;> omega
    · by_cases h3 : c.toNat < 0x10000
      · simp only [if_neg h1, if_neg h2, if_pos h3]
        intro x hx
        simp at hx
        rcases hx with h | h | h <;> omega
      · simp only [if_neg h1, if_neg h2, if_neg h3]
        intro x hx
        simp at hx
        rcases hx with h | h | h | h <;> omega

theorem utf8Enc_lt256 : (cs : List Char) → ∀ x ∈ utf8Enc cs, x < 256
  | [] => by simp [utf8Enc]
  | c :: rest => by
    intro x hx
    have : utf8Enc (c :: rest) = utf8Char c ++ utf8Enc rest := rfl
    rw [this] at hx
    rcases List.mem_append.mp hx with h | h
    · exact utf8Char_lt256 c x h
    · exact utf8Enc_lt256 rest x h

theorem utf8DecChar_encChar (c : Char) (bs : List Nat) :
    utf8DecChar ((utf8Char c).headD 0) ((utf8Char c).tail ++ bs)
      = some (c, bs) := by
  have hv := char_toNat_lt c
  unfold utf8Char
  by_cases h1 : c.toNat < 0x80
  · simp only [if_pos h1, List.headD, List.tail, List.nil_append]
    unfold utf8DecChar
    rw [if_pos h1, Char.ofNat_toNat]
  · by_cases h2 : c.toNat < 0x800
    · simp only [if_neg h1, if_pos h2, List.headD, List.tail, List.cons_append,
        List.nil_append]
      unfold utf8DecChar
      rw [if_neg (by omega), if_neg (by omega), if_pos (by omega)]
      rw [if_pos (by simp [contByte]; omega)]
      simp only [List.getD_cons_zero, List.getD_cons_succ, List.drop_one, List.tail_cons]
      have : (0xC0 + c.toNat / 64 - 0xC0) * 64 + (0x80 + c.toNat % 64 - 0x80) = c.toNat := by
        omega
      rw [this, Char.ofNat_toNat]
    · by_cases h3 : c.toNat < 0x10000
      · simp only [if_neg h1, if_neg h2, if_pos h3, List.headD, List.tail, List.cons_append,
          List.nil_append]
        unfold utf8DecChar
        rw [if_neg (by omega), if_neg (by omega), if_neg (by omega), if_pos (by omega)]
        rw [if_pos (by simp [contByte]; omega)]
        simp only [List.getD_cons_zero, List.getD_cons_succ, List.drop_succ_cons,
          List.drop_one, List.tail_cons, List.drop_zero]
        have : ((0xE0 + c.toNat / 4096 - 0xE0) * 64 + (0x80 + c.toNat / 64 % 64 - 0x80)) * 64 +
            (0x80 + c.toNat % 64 - 0x80) = c.toNat := by
          omega
        rw [this, Char.ofNat_toNat]
      · simp only [if_neg h1, if_neg h2, if_neg h3, List.headD, List.tail, List.cons_append,
          List.nil_append]
        unfold utf8DecChar
        rw [if_neg (by omega), if_neg (by omega), if_neg (by omega), if_neg (by omega),
            if_pos (by omega)]
        rw [if_pos (by simp [contByte]; omega)]
        simp only [List.getD_cons_zero, List.getD_cons_succ, List.drop_succ_cons,
          List.drop_one, List.tail_cons, List.drop_zero]
        have : (((0xF0 + c.toNat / 262144 - 0xF0) * 64 + (0x80 + c.toNat / 4096 % 64 - 0x80)) * 64
            + (0x80 + c.toNat / 64 % 64 - 0x80)) * 64 + (0x80 + c.toNat % 64 - 0x80)
            = c.toNat := by
          omega
        rw [this, Char.ofNat_toNat]

theorem utf8DecChar_shrinks (b1 : Nat) (rest : List Nat) (pr : Char × List Nat)
    (h : utf8DecChar b1 rest = some pr) : pr.2.length ≤ rest.length := by
  unfold utf8DecChar at h
  split_ifs at h <;> simp_all <;> rw [← h] <;> simp [List.length_drop]

theorem utf8DecGo_fuel : (f g : Nat) → (bs : List Nat) → bs.length < f → bs.length < g →
    utf8DecGo f bs = utf8DecGo g bs
  | 0, _, bs, hf, _ => absurd hf (by omega)
  | _+1, 0, bs, _, hg => absurd hg (by omega)
  | _+1, _+1, [], _, _ => rfl
  | f+1, g+1, b1 :: rest, hf, hg => by
    simp only [utf8DecGo]
    cases h : utf8DecChar b1 rest with
    | none => rfl
    | some pr =>
      have hd := utf8DecChar_shrinks b1 rest pr h
      have hlf : pr.2.length < f := by simp at hf; omega
      have hlg : pr.2.length < g := by simp at hg; omega
      simp only [utf8DecGo_fuel f g pr.2 hlf hlg]

theorem utf8Dec_append (c : Char) (bs : List Nat) :
    utf8Dec (utf8Char c ++ bs) = (utf8Dec bs).map (fun cs => c :: cs) := by
  have hne : utf8Char c ≠ [] := by
    unfold utf8Char
    simp only []
    split_ifs <;> simp
  have hshape : utf8Char c ++ bs = (utf8Char c).headD 0 :: ((utf8Char c).tail ++ bs) := by
    cases hcc : utf8Char c with
    | nil => exact absurd hcc hne
    | cons x xs => simp
  unfold utf8Dec
  rw [hshape]
  have hlen : ((utf8Char c).headD 0 :: ((utf8Char c).tail ++ bs)).length = 
      ((utf8Char c).tail ++ bs).length + 1 := by simp
  rw [hlen]
  show utf8DecGo (((utf8Char c).tail ++ bs).length + 1 + 1) _ = _
  simp only [utf8DecGo]
  rw [utf8DecChar_encChar c bs]
  have h1 : bs.length < ((utf8Char c).tail ++ bs).length + 1 := by
    simp only [List.length_append]
    omega
  simp only [utf8DecGo_fuel _ (bs.length + 1) bs h1 (by omega)]

theorem utf8_roundtrip : (cs : List Char) → utf8Dec (utf8Enc cs) = some cs
  | [] => rfl
  | c :: rest => by
    have h : utf8Enc (c :: rest) = utf8Char c ++ utf8Enc rest := rfl
    rw [h, utf8Dec_append, utf8_roundtrip rest]
    rfl

theorem splitDot_no_dot : (cs : List Char) → '.' ∉ cs → splitDot cs = [cs]
  | [], _ => rfl
  | c :: rest, h => by
    have hc : ¬(c == '.') = true := by
      simp only [beq_iff_eq]
      intro he
      exact h (by simp [he])
    have hr : '.' ∉ rest := fun hm => h (by simp [hm])
    simp only [splitDot, if_neg hc, splitDot_no_dot rest hr]

theorem splitDot_cons_dot : (h : List Char) → (t : List Char) → '.' ∉ h →
    splitDot (h ++ '.' :: t) = h :: splitDot t
  | [], t, _ => by simp [splitDot]
  | c :: rest, t, hh => by
    have hc : ¬(c == '.') = true := by
      simp only [beq_iff_eq]
      intro he
      exact hh (by simp [he])
    have hr : '.' ∉ rest := fun hm => hh (by simp [hm])
    have ih := splitDot_cons_dot rest t hr
    simp only [List.cons_append, splitDot, if_neg hc]
    rw [show (rest.append ('.' :: t)) = rest ++ '.' :: t from rfl, ih]

theorem splitDot_three (h p s : List Char) (hh : '.' ∉ h) (hp : '.' ∉ p) (hs : '.' ∉ s) :
    splitDot (h ++ '.' :: (p ++ '.' :: s)) = [h, p, s] := by
  rw [splitDot_cons_dot h _ hh, splitDot_cons_dot p s hp, splitDot_no_dot s hs]

theorem parseDigitsGo_notDigit : (cs : List Char) → (acc : Nat) →
    (∀ c, cs.head? = some c → isDigit c = false) → parseDigitsGo cs acc = (acc, cs)
  | [], acc, _ => rfl
  | c :: rest, acc, h => by
    have hc : isDigit c = false := h c rfl
    simp [parseDigitsGo, hc]

theorem digitChar_isDigit {d : Nat} (h : d < 10) : isDigit (digitChar d) = true := by
  revert h; revert d; decide

theorem digitChar_toNat {d : Nat} (h : d < 10) : (digitChar d).toNat = 48 + d := by
  revert h; revert d; decide

theorem natDigitsGo_all_digits : (f n : Nat) → ∀ c ∈ natDigitsGo f n, isDigit c = true
  | 0, n => by simp [natDigitsGo]
  | f+1, n => by
    intro c hc
    simp only [natDigitsGo] at hc
    by_cases h : n < 10
    · rw [if_pos h] at hc
      simp at hc
      rw [hc]
      exact digitChar_isDigit h
    · rw [if_neg h] at hc
      rcases List.mem_append.mp hc with h2 | h2
      · exact natDigitsGo_all_digits f (n / 10) c h2
      · simp at h2
        rw [h2]
        exact digitChar_isDigit (by omega)

theorem natDigitsGo_ne_nil (f n : Nat) (hf : 0 < f) : natDigitsGo f n ≠ [] := by
  obtain ⟨g, rfl⟩ : ∃ g, f = g + 1 := ⟨f - 1, by omega⟩
  simp only [natDigitsGo]
  by_cases h : n < 10
  · simp [if_pos h]
  · rw [if_neg h]
    simp

theorem parseDigitsGo_cons_digit (c : Char) (rest : List Char) (acc : Nat)
    (h : isDigit c = true) :
    parseDigitsGo (c :: rest) acc = parseDigitsGo rest (acc * 10 + (c.toNat - 48)) := by
  simp [parseDigitsGo, h]

theorem parseDigitsGo_natDigits (n : Nat) : ∀ (f : Nat), n ≤ f → ∀ (acc : Nat) (rest : List Char),
    parseDigitsGo (natDigitsGo (f + 1) n ++ rest) acc
      = parseDigitsGo rest (acc * 10 ^ (natDigitsGo (f + 1) n).length + n) := by
  induction n using Nat.strong_induction_on with
  | _ n ih =>
    intro f hn acc rest
    by_cases h : n < 10
    · simp only [natDigitsGo, if_pos h, List.cons_append, List.nil_append]
      rw [parseDigitsGo_cons_digit _ _ _ (digitChar_isDigit h)]
      have hd := digitChar_toNat h
      simp only [List.length_cons, List.length_nil, pow_one, Nat.zero_add]
      congr 1
      omega
    · obtain ⟨g, rfl⟩ : ∃ g, f = g + 1 := ⟨f - 1, by omega⟩
      rw [show natDigitsGo (g + 1 + 1) n
          = natDigitsGo (g + 1) (n / 10) ++ [digitChar (n % 10)] from by
        rw [natDigitsGo, if_neg h]]
      rw [List.append_assoc]
      rw [show ([digitChar (n % 10)] ++ rest : List Char) = digitChar (n % 10) :: rest from rfl]
      rw [ih (n / 10) (by omega) g (by omega) acc (digitChar (n % 10) :: rest)]
      rw [parseDigitsGo_cons_digit _ _ _ (digitChar_isDigit (show n % 10 < 10 by omega))]
      have hd := digitChar_toNat (show n % 10 < 10 by omega)
      have hlen : (natDigitsGo (g + 1) (n / 10) ++ [digitChar (n % 10)]).length
          = (natDigitsGo (g + 1) (n / 10)).length + 1 := by simp
      rw [hlen, pow_succ]
      congr 1
      rw [hd]
      have hmod : 48 + n % 10 - 48 = n % 10 := by omega
      rw [hmod]
      have hexp : (acc * 10 ^ (natDigitsGo (g + 1) (n / 10)).length + n / 10) * 10 + n % 10
          = acc * (10 ^ (natDigitsGo (g + 1) (n / 10)).length * 10) + (n / 10 * 10 + n % 10) := by
        ring
      rw [hexp]
      congr 1
      omega

theorem parseDigitsGo_natStr (n : Nat) (rest : List Char)
    (hrest : ∀ c, rest.head? = some c → isDigit c = false) :
    parseDigitsGo (natStr n ++ rest) 0 = (n, rest) := by
  unfold natStr
  rw [parseDigitsGo_natDigits n n (le_refl n) 0 rest]
  rw [parseDigitsGo_notDigit rest _ hrest]
  simp

theorem natStr_head_digit (n : Nat) : ∀ c, (natStr n).head? = some c → isDigit c = true := by
  intro c hc
  apply natDigitsGo_all_digits (n + 1) n
  unfold natStr at hc
  cases he : natDigitsGo (n + 1) n with
  | nil => exact absurd he (natDigitsGo_ne_nil (n + 1) n (by omega))
  | cons x xs =>
    rw [he] at hc
    simp at hc
    simp [he, hc]

theorem digit_ne_minus (c : Char) (h : isDigit c = true) : (c == '-') = false := by
  simp only [beq_eq_false_iff_ne]
  intro he
  rw [he] at h
  simp [isDigit] at h

theorem parseIntChars_intStr (n : Int) (rest : List Char)
    (hrest : ∀ c, rest.head? = some c → isDigit c = false) :
    parseIntChars (intStr n ++ rest) = some (n, rest) := by
  by_cases h : n < 0
  · have he : intStr n = '-' :: natStr (-n).toNat := by simp [intStr, h]
    rw [he]
    cases hds : natStr (-n).toNat with
    | nil => exact absurd hds (natDigitsGo_ne_nil _ _ (by omega))
    | cons d ds =>
      have hd : isDigit d = true := natStr_head_digit (-n).toNat d (by rw [hds]; rfl)
      simp only [List.cons_append]
      simp only [parseIntChars, if_pos (show (('-' : Char) == '-') = true from rfl), hd,
        if_pos rfl]
      have hparse : parseDigitsGo (d :: (ds ++ rest)) 0 = ((-n).toNat, rest) := by
        have := parseDigitsGo_natStr (-n).toNat rest hrest
        rw [hds] at this
        exact this
      rw [hparse]
      simp only [if_true, Option.some.injEq, Prod.mk.injEq, and_true]
      omega
  · have he : intStr n = natStr n.toNat := by simp [intStr, h]
    rw [he]
    cases hds : natStr n.toNat with
    | nil => exact absurd hds (natDigitsGo_ne_nil _ _ (by omega))
    | cons d ds =>
      have hd : isDigit d = true := natStr_head_digit n.toNat d (by rw [hds]; rfl)
      have hdm : (d == '-') = false := digit_ne_minus d hd
      simp only [List.cons_append]
      simp only [parseIntChars, hdm, Bool.false_eq_true, if_false, hd, if_pos rfl]
      have hparse : parseDigitsGo (d :: (ds ++ rest)) 0 = (n.toNat, rest) := by
        have := parseDigitsGo_natStr n.toNat rest hrest
        rw [hds] at this
        exact this
      rw [hparse]
      simp only [if_true, Option.some.injEq, Prod.mk.injEq, and_true]
      omega

theorem hexVal_hexDigitChar {d : Nat} (h : d < 16) : hexVal (hexDigitChar d) = some d := by
  revert h; revert d; decide

theorem scanStrGo_fuel : (f g : Nat) → (cs : List Char) → cs.length < f → cs.length < g →
    scanStrGo f cs = scanStrGo g cs
  | 0, _, cs, hf, _ => absurd hf (by omega)
  | _+1, 0, cs, _, hg => absurd hg (by omega)
  | _+1, _+1, [], _, _ => rfl
  | f+1, g+1, c :: rest, hf, hg => by
    have hf1 : rest.length < f := by simp at hf; omega
    have hg1 : rest.length < g := by simp at hg; omega
    simp only [scanStrGo]
    by_cases h1 : (c == '"') = true
    · rw [if_pos h1, if_pos h1]
    · rw [if_neg h1, if_neg h1]
      by_cases h2 : (c == '\\') = true
      · rw [if_pos h2, if_pos h2]
        by_cases h3 : rest.isEmpty
        · rw [if_pos h3, if_pos h3]
        · rw [if_neg h3, if_neg h3]
          by_cases h4 : (rest.getD 0 ' ' == 'u') = true
          · rw [if_pos h4, if_pos h4]
            by_cases h5 : 5 ≤ rest.length
            · rw [if_pos h5, if_pos h5]
              have hd5 : (rest.drop 5).length < f := by
                simp [List.length_drop]; omega
              have hd5g : (rest.drop 5).length < g := by
                simp [List.length_drop]; omega
              rw [scanStrGo_fuel f g (rest.drop 5) hd5 hd5g]
            · rw [if_neg h5, if_neg h5]
          · rw [if_neg h4, if_neg h4]
            have hd1 : (rest.drop 1).length < f := by
              simp [List.length_drop]; omega
            have hd1g : (rest.drop 1).length < g := by
              simp [List.length_drop]; omega
            rw [scanStrGo_fuel f g (rest.drop 1) hd1 hd1g]
      · rw [if_neg h2, if_neg h2]
        rw [scanStrGo_fuel f g rest hf1 hg1]

theorem scanStr_cons_plain (c : Char) (rest : List Char)
    (h1 : (c == '"') = false) (h2 : (c == '\\') = false) :
    scanStr (c :: rest) = (scanStr rest).map (fun p => (c :: p.1, p.2)) := by
  unfold scanStr
  show scanStrGo (rest.length + 1 + 1) (c :: rest) = _
  simp only [scanStrGo, h1, h2, Bool.false_eq_true, if_false]

theorem scanStr_quote (rest : List Char) : scanStr ('"' :: rest) = some ([], rest) := by
  unfold scanStr
  show scanStrGo (rest.length + 1 + 1) ('"' :: rest) = _
  simp [scanStrGo]

theorem scanStr_esc2 (e : Char) (ch : Char) (rest : List Char)
    (hu : (e == 'u') = false) (hesc : escCode e = some ch) :
    scanStr ('\\' :: e :: rest) = (scanStr rest).map (fun p => (ch :: p.1, p.2)) := by
  unfold scanStr
  show scanStrGo (rest.length + 1 + 1 + 1) ('\\' :: e :: rest) = _
  simp only [scanStrGo]
  rw [if_neg (by decide), if_pos (by decide), if_neg (by simp)]
  simp only [List.getD_cons_zero, hu, Bool.false_eq_true, if_false, hesc, Option.some_bind,
    List.drop_one, List.tail_cons]
  rw [scanStrGo_fuel (rest.length + 1 + 1) (rest.length + 1) rest (by omega) (by omega)]

theorem scanStr_escU (h1 h2 h3 h4 : Char) (v1 v2 v3 v4 : Nat) (rest : List Char)
    (e1 : hexVal h1 = some v1) (e2 : hexVal h2 = some v2) (e3 : hexVal h3 = some v3)
    (e4 : hexVal h4 = some v4) :
    scanStr ('\\' :: 'u' :: h1 :: h2 :: h3 :: h4 :: rest)
      = (scanStr rest).map
          (fun p => (Char.ofNat (((v1 * 16 + v2) * 16 + v3) * 16 + v4) :: p.1, p.2)) := by
  unfold scanStr
  show scanStrGo (rest.length + 5 + 1 + 1) ('\\' :: 'u' :: h1 :: h2 :: h3 :: h4 :: rest) = _
  simp only [scanStrGo]
  rw [if_neg (by decide), if_pos (by decide), if_neg (by simp)]
  rw [if_pos (by simp), if_pos (by simp)]
  simp only [List.getD_cons_zero, List.getD_cons_succ, e1, e2, e3, e4, Option.some_bind,
    List.drop_succ_cons, List.drop_zero]
  rw [scanStrGo_fuel (rest.length + 6) (rest.length + 1) rest (by omega) (by omega)]

theorem scan_escChar (c : Char) (tail : List Char) :
    scanStr (escChar c ++ tail) = (scanStr tail).map (fun p => (c :: p.1, p.2)) := by
  unfold escChar
  by_cases h1 : (c == '"') = true
  · simp only [if_pos h1, List.cons_append, List.nil_append]
    rw [scanStr_esc2 '"' '"' tail (by decide) (by decide)]
    simp only [beq_iff_eq] at h1
    rw [h1]
  · by_cases h2 : (c == '\\') = true
    · simp only [if_neg h1, if_pos h2, List.cons_append, List.nil_append]
      rw [scanStr_esc2 '\\' '\\' tail (by decide) (by decide)]
      simp only [beq_iff_eq] at h2
      rw [h2]
    · by_cases h3 : (c == '\n') = true
      · simp only [if_neg h1, if_neg h2, if_pos h3, List.cons_append, List.nil_append]
        rw [scanStr_esc2 'n' '\n' tail (by decide) (by decide)]
        simp only [beq_iff_eq] at h3
        rw [h3]
      · by_cases h4 : (c == '\r') = true
        · simp only [if_neg h1, if_neg h2, if_neg h3, if_pos h4, List.cons_append,
            List.nil_append]
          rw [scanStr_esc2 'r' '\r' tail (by decide) (by decide)]
          simp only [beq_iff_eq] at h4
          rw [h4]
        · by_cases h5 : (c == '\t') = true
          · simp only [if_neg h1, if_neg h2, if_neg h3, if_neg h4, if_pos h5,
              List.cons_append, List.nil_append]
            rw [scanStr_esc2 't' '\t' tail (by decide) (by decide)]
            simp only [beq_iff_eq] at h5
            rw [h5]
          · by_cases h6 : (c.toNat == 8) = true
            · simp only [if_neg h1, if_neg h2, if_neg h3, if_neg h4, if_neg h5, if_pos h6,
                List.cons_append, List.nil_append]
              rw [scanStr_esc2 'b' (Char.ofNat 8) tail (by decide) (by decide)]
              simp only [beq_iff_eq] at h6
              rw [show Char.ofNat 8 = c from by rw [← h6, Char.ofNat_toNat]]
            · by_cases h7 : (c.toNat == 12) = true
              · simp only [if_neg h1, if_neg h2, if_neg h3, if_neg h4, if_neg h5, if_neg h6,
                  if_pos h7, List.cons_append, List.nil_append]
                rw [scanStr_esc2 'f' (Char.ofNat 12) tail (by decide) (by decide)]
                simp only [beq_iff_eq] at h7
                rw [show Char.ofNat 12 = c from by rw [← h7, Char.ofNat_toNat]]
              · by_cases h8 : c.toNat < 0x20
                · simp only [if_neg h1, if_neg h2, if_neg h3, if_neg h4, if_neg h5, if_neg h6,
                    if_neg h7, if_pos h8, List.cons_append, List.nil_append]
                  rw [scanStr_escU '0' '0' (hexDigitChar (c.toNat / 16))
                      (hexDigitChar (c.toNat % 16)) 0 0 (c.toNat / 16) (c.toNat % 16) tail
                      (by decide) (by decide)
                      (hexVal_hexDigitChar (by omega)) (hexVal_hexDigitChar (by omega))]
                  rw [show ((0 * 16 + 0) * 16 + c.toNat / 16) * 16 + c.toNat % 16 = c.toNat from by
                    omega]
                  rw [Char.ofNat_toNat]
                · simp only [if_neg h1, if_neg h2, if_neg h3, if_neg h4, if_neg h5, if_neg h6,
                    if_neg h7, if_neg h8, List.cons_append, List.nil_append]
                  rw [scanStr_cons_plain c tail (by simp_all) (by simp_all)]

theorem scan_esc_foldr : (cs : List Char) → (rest : List Char) →
    scanStr (cs.foldr (fun c acc => escChar c ++ acc) [] ++ '"' :: rest) = some (cs, rest)
  | [], rest => scanStr_quote rest
  | c :: cs, rest => by
    show scanStr ((escChar c ++ cs.foldr (fun c acc => escChar c ++ acc) []) ++ '"' :: rest) = _
    rw [List.append_assoc, scan_escChar, scan_esc_foldr cs rest]
    rfl

theorem scanStr_escStr (s : String) (rest : List Char) :
    scanStr (escStr s ++ '"' :: rest) = some (s.data, rest) := by
  unfold escStr
  exact scan_esc_foldr s.data rest

theorem dropLit_append : (lit rest : List Char) → dropLit lit (lit ++ rest) = some rest
  | [], rest => rfl
  | l :: ls, rest => by
    simp only [List.cons_append, dropLit, beq_self_eq_true, if_true]
    exact dropLit_append ls rest

theorem parsePayload_payloadChars (pl : Payload) : parsePayload (payloadChars pl) = some pl := by
  obtain ⟨p, ah, iat, exp⟩ := pl
  unfold payloadChars parsePayload
  rw [show ("\",\"ah\":\"" : String).data = '"' :: (",\"ah\":\"" : String).data from rfl,
      show ("\",\"iat\":" : String).data = '"' :: (",\"iat\":" : String).data from rfl]
  simp only [List.append_assoc, List.cons_append, List.nil_append]
  simp only [dropLit, beq_self_eq_true, if_true, Option.bind_eq_bind, Option.some_bind]
  rw [scanStr_escStr]
  simp only [Option.bind_eq_bind, Option.some_bind]
  simp only [dropLit, beq_self_eq_true, if_true, Option.bind_eq_bind, Option.some_bind]
  rw [scanStr_escStr]
  simp only [Option.bind_eq_bind, Option.some_bind]
  simp only [dropLit, beq_self_eq_true, if_true, Option.bind_eq_bind, Option.some_bind]
  rw [parseIntChars_intStr iat _ (by
    intro c hc
    simp at hc
    subst hc
    decide)]
  simp only [Option.bind_eq_bind, Option.some_bind]
  simp only [dropLit, beq_self_eq_true, if_true, Option.bind_eq_bind, Option.some_bind]
  rw [parseIntChars_intStr exp _ (by
    intro c hc
    simp at hc
    subst hc
    decide)]
  simp only [Option.bind_eq_bind, Option.some_bind]
  simp only [dropLit, beq_self_eq_true, if_true, Option.bind_eq_bind, Option.some_bind]
  rfl

theorem string_data_triple (a b c : String) :
    (a ++ "." ++ b ++ "." ++ c).data = a.data ++ '.' :: (b.data ++ '.' :: c.data) := by
  simp only [String.data_append]
  simp [List.append_assoc]

theorem verify_make_eval (secret : List Nat) (iat ttl now2 : Int) (path path2 : String)
    (args args2 : List String) :
    verify_preflight_token secret now2
        (some (make_preflight_token secret iat ttl path args)) path2 args2
      = (if now2 > iat + ttl then { ok := false, reason := some "expired" }
         else if !(normalize_path path2 == normalize_path path) then
           { ok := false, reason := some "mismatch" }
         else if !(args_hash args2 == args_hash args) then
           { ok := false, reason := some "mismatch" }
         else { ok := true }) := by
  unfold make_preflight_token
  simp only []
  set pl : Payload := { p := normalize_path path, ah := args_hash args,
                        iat := iat, exp := iat + ttl } with hpl
  set pb : String := b64url (utf8Enc (payloadChars pl)) with hpb
  set sg : String := b64url (hmacSha256 secret (strBytes (headerB64 ++ "." ++ pb))) with hsg
  have hdata : (headerB64 ++ "." ++ pb ++ "." ++ sg).data
      = headerB64.data ++ '.' :: (pb.data ++ '.' :: sg.data) := string_data_triple _ _ _
  have hsplit : splitDot (headerB64 ++ "." ++ pb ++ "." ++ sg).data
      = [headerB64.data, pb.data, sg.data] := by
    rw [hdata]
    exact splitDot_three _ _ _ (b64enc_no_dot _) (b64enc_no_dot _) (b64enc_no_dot _)
  have hnonempty : (headerB64 ++ "." ++ pb ++ "." ++ sg).data ≠ [] := by
    rw [hdata]
    intro h
    have := congrArg List.length h
    simp at this
  have hne : ((headerB64 ++ "." ++ pb ++ "." ++ sg) == "") = false := by
    rw [beq_eq_false_iff_ne]
    intro he
    apply hnonempty
    rw [he]
  have hsig : utf8Enc (headerB64.data ++ '.' :: pb.data)
      = strBytes (headerB64 ++ "." ++ pb) := by
    unfold strBytes
    congr 1
  unfold verify_preflight_token
  simp only [hne, Bool.false_eq_true, if_false, hsplit, hsig]
  rw [show ((b64url (hmacSha256 secret (strBytes (headerB64 ++ "." ++ pb)))).data == sg.data)
      = true from by rw [hsg]; simp]
  simp only [Bool.not_true, Bool.false_eq_true, if_false]
  have hbd : b64padDecode (String.mk pb.data) = some (utf8Enc (payloadChars pl)) := by
    rw [show String.mk pb.data = pb from rfl, hpb]
    exact b64padDecode_b64url _ (utf8Enc_lt256 _)
  rw [hbd]
  simp only [utf8_roundtrip, parsePayload_payloadChars, hpl]

theorem verify_none_missing (secret : List Nat) (now2 : Int) (path : String) (args : List String) :
    verify_preflight_token secret now2 Option.none path args
      = { ok := false, reason := some "missing" } := rfl

theorem verify_empty_missing (secret : List Nat) (now2 : Int) (path : String)
    (args : List String) :
    verify_preflight_token secret now2 (some "") path args
      = { ok := false, reason := some "missing" } := rfl

theorem verify_badsplit_invalid (secret : List Nat) (now2 : Int) (t path : String)
    (args : List String) (hne : t ≠ "") (hsplit : (splitDot t.data).length ≠ 3) :
    verify_preflight_token secret now2 (some t) path args
      = { ok := false, reason := some "invalid" } := by
  unfold verify_preflight_token
  simp only [show (t == "") = false by simp [hne], Bool.false_eq_true, if_false]
  rcases hl : splitDot t.data with _ | ⟨a, _ | ⟨b, _ | ⟨c, _ | ⟨d, l⟩⟩⟩⟩ <;>
    first
      | rfl
      | (exact absurd (by rw [hl]; rfl) hsplit)

theorem verify_badsig_invalid (secret : List Nat) (now2 : Int) (t path : String)
    (args : List String) (hB pB sB : List Char) (hne : t ≠ "")
    (hsplit : splitDot t.data = [hB, pB, sB])
    (hsig : ((b64url (hmacSha256 secret (utf8Enc (hB ++ '.' :: pB)))).data == sB) = false) :
    verify_preflight_token secret now2 (some t) path args
      = { ok := false, reason := some "invalid" } := by
  unfold verify_preflight_token
  simp only [show (t == "") = false by simp [hne], Bool.false_eq_true, if_false, hsplit, hsig,
    Bool.not_false, if_true]

theorem verify_ok_only_if (secret : List Nat) (now2 : Int) (t path : String)
    (args : List String)
    (h : verify_preflight_token secret now2 (some t) path args = { ok := true }) :
    ∃ hB pB sB pl, splitDot t.data = [hB, pB, sB] ∧
      ((b64url (hmacSha256 secret (utf8Enc (hB ++ '.' :: pB)))).data == sB) = true ∧
      ((b64padDecode (String.mk pB)).bind (fun bytes => (utf8Dec bytes).bind parsePayload))
        = some pl ∧
      ¬(now2 > pl.exp) ∧ normalize_path path = pl.p ∧ args_hash args = pl.ah := by
  unfold verify_preflight_token at h
  by_cases he : (t == "") = true
  · simp [he] at h
  · simp only [show (t == "") = false from by simpa using he, Bool.false_eq_true, if_false] at h
    rcases hl : splitDot t.data with _ | ⟨a, _ | ⟨b, _ | ⟨c, _ | ⟨d, l⟩⟩⟩⟩ <;>
      simp only [hl] at h
    · simp at h
    · simp at h
    · simp at h
    · by_cases hs : ((b64url (hmacSha256 secret (utf8Enc (a ++ '.' :: b)))).data == c) = true
      · simp only [hs, Bool.not_true, Bool.false_eq_true, if_false] at h
        cases hbd : (b64padDecode (String.mk b)).bind
            (fun bytes => (utf8Dec bytes).bind parsePayload) with
        | none =>
          rcases hb2 : b64padDecode (String.mk b) with _ | bytes
          · simp only [hb2] at h
            simp at h
          · simp only [hb2] at h
            simp only [hb2] at hbd
            simp only [Option.some_bind] at hbd
            rcases hu2 : utf8Dec bytes with _ | cs
            · simp only [hu2] at h
              simp at h
            · simp only [hu2] at h
              simp only [hu2] at hbd
              simp only [Option.some_bind] at hbd
              simp only [hbd] at h
              simp at h
        | some pl =>
          rcases hb2 : b64padDecode (String.mk b) with _ | bytes
          · simp only [hb2] at hbd
            simp at hbd
          · simp only [hb2] at h
            simp only [hb2] at hbd
            simp only [Option.some_bind] at hbd
            rcases hu2 : utf8Dec bytes with _ | cs
            · simp only [hu2] at hbd
              simp at hbd
            · simp only [hu2] at h
              simp only [hu2] at hbd
              simp only [Option.some_bind] at hbd
              simp only [hbd] at h
              by_cases hexp : now2 > pl.exp
              · rw [if_pos hexp] at h
                simp at h
              · rw [if_neg hexp] at h
                by_cases hpm : (normalize_path path == pl.p) = true
                · simp only [hpm, Bool.not_true, Bool.false_eq_true, if_false] at h
                  by_cases ham : (args_hash args == pl.ah) = true
                  · exact ⟨a, b, c, pl, rfl, hs,
                      by rw [hb2]; simp only [Option.some_bind]; rw [hu2]; simpa using hbd,
                      hexp, by simpa using hpm, by simpa using ham⟩
                  · simp only [show (args_hash args == pl.ah) = false from by simpa using ham,
                      Bool.not_false, if_true] at h
                    simp at h
                · simp only [show (normalize_path path == pl.p) = false from by simpa using hpm,
                    Bool.not_false, if_true] at h
                  simp at h
      · simp only [show ((b64url (hmacSha256 secret (utf8Enc (a ++ '.' :: b)))).data == c)
            = false from by simpa using hs, Bool.not_false, if_true] at h
        simp at h
    · simp at h

theorem evaluate_matchedRule (parseIso : String → Option Int) (now : Int) (fs : FS)
    (path : String) (args : List String) (session_id agent_name agent_version : Option String)
    (allowed_root : String) (flags_global : List String) (state : Option PolicyState) :
    (evaluate_preflight parseIso now fs path args session_id agent_name agent_version
        allowed_root flags_global state).matchedRule
      = selectRule parseIso now (state.getD emptyState).rules (resolveParts path) := by
  simp [evaluate_preflight]

theorem selectRule_valid (parseIso : String → Option Int) (now : Int)
    (rules : List Rule) (p : List String) (r : Rule)
    (h : selectRule parseIso now rules p = some r) : rule_valid parseIso now r = true := by
  have := List.find?_some h
  simp only [Bool.and_eq_true] at this
  exact this.1

theorem capsSelectRule_alive (parseIso : String → Option Int) (now : Int)
    (rules : List Rule) (p : List String) (r : Rule)
    (h : capsSelectRule parseIso now rules p = some r) :
    caps_rule_alive parseIso now r = true := by
  have := List.find?_some h
  simp only [Bool.and_eq_true] at this
  exact this.1

/-- C6: a rule whose `expiresAt` parses to a past (or current) time is inert:
neither rule-selection loop ever picks it, and `evaluate_preflight` over a
state holding only that rule reports `matchedRule = none` for every path. -/
theorem C6_expired_rule_inert (parseIso : String → Option Int) (now : Int) (r : Rule)
    (t : Int) (hparse : parse_iso parseIso r.expiresAt = some t) (hpast : t ≤ now) :
    (∀ rules p, selectRule parseIso now rules p ≠ some r)
    ∧ (∀ rules p, capsSelectRule parseIso now rules p ≠ some r)
    ∧ (∀ fs path args sid an av root flags version overlays profiles,
        (evaluate_preflight parseIso now fs path args sid an av root flags
          (some ⟨version, [r], overlays, profiles⟩)).matchedRule = Option.none) := by
  have hvalid : rule_valid parseIso now r = false := by
    unfold rule_valid
    rw [hparse]
    simp
    omega
  have halive : caps_rule_alive parseIso now r = false := by
    unfold caps_rule_alive
    rw [hparse]
    simp
    omega
  refine ⟨?_, ?_, ?_⟩
  · intro rules p hsel
    have := selectRule_valid parseIso now rules p r hsel
    rw [hvalid] at this
    exact absurd this (by simp)
  · intro rules p hsel
    have := capsSelectRule_alive parseIso now rules p r hsel
    rw [halive] at this
    exact absurd this (by simp)
  · intro fs path args sid an av root flags version overlays profiles
    rw [evaluate_matchedRule]
    unfold selectRule
    simp [hvalid]

/-- C3: a missing policy file, bytes that do not parse as JSON, or a JSON
document that is not an object all load as the empty policy state — no rules,
no overlays, no profiles — and the embedding is a total function (no
exception escapes). -/
theorem C3_load_state_fail_closed (c : FileContent)
    (h : c = .missing ∨ c = .invalidJson ∨ ∃ j, c = .json j ∧ ∀ kvs, j ≠ .obj kvs) :
    load_state c = emptyState ∧ (load_state c).rules = [] ∧
      (load_state c).overlays = [] ∧ (load_state c).profiles = [] := by
  have hls : load_state c = emptyState := by
    rcases h with rfl | rfl | ⟨j, rfl, hj⟩
    · rfl
    · rfl
    · cases j with
      | obj kvs => exact absurd rfl (hj kvs)
      | null => rfl
      | bool b => rfl
      | num n => rfl
      | str s => rfl
      | arr xs => rfl
  exact ⟨hls, by rw [hls]; rfl, by rw [hls]; rfl, by rw [hls]; rfl⟩

/-- Witness for C3 at a concrete corrupt input. -/
theorem C3_load_state_fail_closed_witness :
    load_state .invalidJson = emptyState ∧ (load_state .invalidJson).rules = [] ∧
      (load_state .invalidJson).overlays = [] ∧ (load_state .invalidJson).profiles = [] :=
  C3_load_state_fail_closed .invalidJson (Or.inr (Or.inl rfl))

/-- Witness for C6: a rule for `/allowed/run.sh` expired at time 5 is not
matched at time 10, even on its own exact path. -/
theorem C6_expired_rule_inert_witness :
    (evaluate_preflight strToInt? 10 ⟨[["allowed", "run.sh"]]⟩ "/allowed/run.sh" []
      Option.none Option.none Option.none "/" [] (some ⟨1, [ruleExpired], [], []⟩)).matchedRule
      = Option.none :=
  (C6_expired_rule_inert strToInt? 10 ruleExpired 5 (by decide) (by decide)).2.2
    ⟨[["allowed", "run.sh"]]⟩ "/allowed/run.sh" [] Option.none Option.none Option.none "/" []
    1 [] []

/-- C1 (failing evaluation): saving a state whose rule carries caps writes
nothing (`json.dumps` raises on the dataclass, `save_state` swallows it), so
reloading returns the prior file content — here the empty state — and the
round-trip fails. -/
theorem C1_rule_caps_not_persisted :
    save_state stRuleCaps Option.none = Option.none
    ∧ load_state .missing = emptyState
    ∧ emptyState ≠ stRuleCaps := by
  refine ⟨by rfl, rfl, by decide⟩

/-- C10: the admission decision of the `run_script` handler is identical
under any two policy states — `verify_preflight_token` and the whole gate
never consult the persisted `PolicyState`, so removing or expiring the rule
or overlay that justified issuance does not invalidate an issued, unexpired
token. -/
theorem C10_gate_state_independent (env : GateEnv) (st1 st2 : PolicyState) (path : String)
    (args : List String) (token : Option String) (bodySession : Option String) :
    run_script_admission env st1 path args token bodySession
      = run_script_admission env st2 path args token bodySession := rfl

theorem effective_caps_for_eq (parseIso : String → Option Int) (now : Int) (path : String)
    (session_id : Option String) (allowed_root : String) (state : Option PolicyState)
    (h : is_under_root (resolveParts path) (resolveParts allowed_root) = true) :
    effective_caps_for parseIso now path session_id allowed_root state
      = mergeCaps (overlay_caps_for parseIso now (state.getD emptyState) session_id)
          (rule_caps_for parseIso now (state.getD emptyState) (resolveParts path)) := by
  unfold effective_caps_for overlay_caps_for rule_caps_for
  rw [if_neg (by simp [h])]

/-- C9 counterexample: with a single matched-rule caps whose `concurrency`
is 0, the field-wise minimum of the present caps is 0, but
`effective_caps_for` returns concurrency 1 (the `or 1` coercion) — refuting
the claim that every field is exactly the minimum of the caps present. -/
theorem C9_counterexample :
    (effective_caps_for strToInt? 0 "/a/run.sh" Option.none "/"
        (some { rules := [ruleConcZero] })).map (·.concurrency) = some 1
    ∧ ruleConcZero.caps.map (·.concurrency) = some 0 := by
  constructor
  · rfl
  · rfl

/-- C9 as amended: inside the allowed root, `effective_caps_for` is the merge
of the overlay-profile caps and the matched-rule caps; the merge is `none`
exactly when neither is present, every field is the minimum of the fields
present (`min_or`), except that a merged concurrency of 0 is replaced by 1. -/
theorem C9_caps_merge (parseIso : String → Option Int) (now : Int) (path : String)
    (session_id : Option String) (allowed_root : String) (state : Option PolicyState)
    (h : is_under_root (resolveParts path) (resolveParts allowed_root) = true) :
    (effective_caps_for parseIso now path session_id allowed_root state
      = mergeCaps (overlay_caps_for parseIso now (state.getD emptyState) session_id)
          (rule_caps_for parseIso now (state.getD emptyState) (resolveParts path)))
    ∧ (∀ oc rc, mergeCaps oc rc = Option.none ↔ oc = Option.none ∧ rc = Option.none)
    ∧ (∀ oc rc c d, mergeCaps oc rc = some c →
        (oc ≠ Option.none ∨ rc ≠ Option.none) →
        c.maxTimeoutMs = minOr (oc.map (·.maxTimeoutMs)) (rc.map (·.maxTimeoutMs)) d
        ∧ c.maxBytes = minOr (oc.map (·.maxBytes)) (rc.map (·.maxBytes)) d
        ∧ c.maxStdoutLines = minOr (oc.map (·.maxStdoutLines)) (rc.map (·.maxStdoutLines)) d
        ∧ c.concurrency = (if minOr (oc.map (·.concurrency)) (rc.map (·.concurrency)) d = 0
            then 1 else minOr (oc.map (·.concurrency)) (rc.map (·.concurrency)) d)) := by
  refine ⟨effective_caps_for_eq parseIso now path session_id allowed_root state h, ?_, ?_⟩
  · intro oc rc
    cases oc <;> cases rc <;> simp [mergeCaps]
  · intro oc rc c d hm hp
    cases oc with
    | none =>
      cases rc with
      | none => simp at hp
      | some rcv =>
        simp only [mergeCaps, Option.some.injEq] at hm
        subst hm
        by_cases hz : rcv.concurrency = 0 <;>
          simp [minOr, hz, beq_iff_eq]
    | some ocv =>
      cases rc with
      | none =>
        simp only [mergeCaps, Option.some.injEq] at hm
        subst hm
        by_cases hz : ocv.concurrency = 0 <;>
          simp [minOr, hz, beq_iff_eq]
      | some rcv =>
        simp only [mergeCaps, Option.some.injEq] at hm
        subst hm
        by_cases hz : min ocv.concurrency rcv.concurrency = 0 <;>
          simp [minOr, hz, beq_iff_eq]

/-- Witness for C9 inside the allowed root. -/
theorem C9_caps_merge_witness :
    effective_caps_for strToInt? 0 "/a/run.sh" Option.none "/"
        (some { rules := [ruleConcZero] })
      = mergeCaps
          (overlay_caps_for strToInt? 0
            ((some (PolicyState.mk 1 [ruleConcZero] [] [])).getD emptyState) Option.none)
          (rule_caps_for strToInt? 0
            ((some (PolicyState.mk 1 [ruleConcZero] [] [])).getD emptyState)
            (resolveParts "/a/run.sh")) :=
  (C9_caps_merge strToInt? 0 "/a/run.sh" Option.none "/"
    (some (PolicyState.mk 1 [ruleConcZero] [] [])) (by decide)).1

/-- C8 counterexample: the code's `fnmatch`-based scope matching lets the
pattern `*.sh` match the nested relative path `sub/run.sh` (its `*` crosses
the segment boundary), while the claimed segment-aware semantics rejects it
— so the claimed iff fails on this input. -/
theorem C8_counterexample :
    (evaluate_preflight strToInt? 0 ⟨[["proj", "sub", "run.sh"]]⟩ "/proj/sub/run.sh" []
        Option.none Option.none Option.none "/" []
        (some { rules := [ruleStarSh] })).matchedRule = some ruleStarSh
    ∧ segGlobMatch "sub/run.sh" "*.sh" = false := by
  constructor
  · rfl
  · rfl

/-- C8 as amended: a `type=scope` rule with a nonempty resolved root and
nonempty patterns matches exactly when the candidate is under the root
(equality included, relative path `.`) and the relative path matches one of
the patterns under Python `fnmatch` semantics, in which `*` also spans `/`;
the spec's concrete example still holds: relative pattern `run.sh` does not
match `sub/run.sh`. -/
theorem C8_scope_match_characterization (p : List String) (r : Rule) (sr : String)
    (htype : r.type = "scope") (hsr : r.scopeRoot = some sr) (hsrne : sr ≠ "")
    (hpat : r.patterns ≠ []) :
    (ruleSelectorMatches p r = true ↔
      (is_under_root p (resolveParts sr) = true
       ∧ ∃ pat ∈ r.patterns, fnmatchB (relStr p (resolveParts sr)) pat = true))
    ∧ fnmatchB "sub/run.sh" "run.sh" = false := by
  constructor
  · unfold ruleSelectorMatches
    rw [htype, hsr]
    simp only [show (("scope" : String) == "path") = false by decide,
      show (("scope" : String) == "scope") = true by decide, Bool.false_eq_true, if_false,
      if_true]
    simp [hsrne, hpat, List.any_eq_true, List.isEmpty_eq_false]
  · rfl

/-- Witness for C8's amended characterization at the counterexample rule. -/
theorem C8_scope_match_characterization_witness :
    (ruleSelectorMatches ["proj", "sub", "run.sh"] ruleStarSh = true ↔
      (is_under_root ["proj", "sub", "run.sh"] (resolveParts "/proj") = true
       ∧ ∃ pat ∈ ruleStarSh.patterns,
           fnmatchB (relStr ["proj", "sub", "run.sh"] (resolveParts "/proj")) pat = true))
    ∧ fnmatchB "sub/run.sh" "run.sh" = false :=
  C8_scope_match_characterization ["proj", "sub", "run.sh"] ruleStarSh "/proj" rfl rfl
    (by decide) (by decide)

/-- C7 counterexample: an overlay applies (session `s`, profile `p0`), the
profile's allowed-flags list is empty, yet the effective set stays the whole
global set instead of the claimed `global ∩ profile-allowed = ∅` — the code
skips the intersection for an empty (falsy) list. -/
theorem C7_counterexample :
    effectiveAllowedFlags strToInt? 0 ["--a"] stEmptyProfileFlags (some "s") Option.none
      = ["--a"]
    ∧ (["--a"].filter (fun f => (([] : List String)).contains f)) = []
    ∧ (["--a"] : List String) ≠ [] := by
  refine ⟨rfl, rfl, by decide⟩

theorem effectiveAllowedFlags_split (parseIso : String → Option Int) (now : Int)
    (flags_global : List String) (st : PolicyState) (session_id : Option String)
    (matched : Option Rule) :
    effectiveAllowedFlags parseIso now flags_global st session_id matched
      = ruleApply matched (eff1Def parseIso now flags_global st session_id) := by
  unfold effectiveAllowedFlags ruleApply eff1Def
  rfl

theorem mem_eff1Def (parseIso : String → Option Int) (now : Int)
    (flags_global : List String) (st : PolicyState) (session_id : Option String)
    (f : String) :
    f ∈ eff1Def parseIso now flags_global st session_id ↔
      (f ∈ flags_global
       ∧ ∀ l, overlayFlagsNarrow parseIso now st session_id = some l → f ∈ l) := by
  unfold eff1Def overlayFlagsNarrow
  cases session_id with
  | none => simp
  | some sid =>
    by_cases hsid : sid == ""
    · simp [hsid]
    · simp only [hsid, if_false, Bool.false_eq_true]
      rcases hfo : findOverlay parseIso now st.overlays sid with _ | o <;>
        simp only [hfo]
      · simp
      · rcases hlk : st.profiles.lookup o.profile with _ | prof <;> simp only [hlk]
        · simp
        · by_cases hpe : prof.flagsAllowed.isEmpty
          · simp [hpe]
          · simp only [hpe, if_false, Bool.false_eq_true, List.mem_filter,
              Option.some.injEq, forall_eq', List.contains, List.elem_eq_mem, decide_eq_true_eq]
            try tauto

theorem mem_ruleApply (matched : Option Rule) (eff1 : List String) (f : String) :
    f ∈ ruleApply matched eff1 ↔
      (f ∈ eff1
       ∧ (∀ l, ruleFlagsNarrow matched = some l → f ∈ l)
       ∧ (∀ l, ruleFlagsDeny matched = some l → f ∉ l)) := by
  unfold ruleApply ruleFlagsNarrow ruleFlagsDeny
  cases matched with
  | none => simp
  | some r =>
    rcases hfa : r.flagsAllowed with _ | la <;>
      rcases hfd : r.flagsDenied with _ | ld <;>
      simp only [hfa, hfd]
    · simp
    · by_cases hld : ld.isEmpty
      · simp [hld]
      · simp only [hld, if_false, Bool.false_eq_true, List.mem_filter,
          Option.some.injEq, forall_eq', List.contains, List.elem_eq_mem, decide_eq_true_eq,
          Bool.not_eq_true', decide_eq_false_iff_not]
        try tauto
    · by_cases hla : la.isEmpty
      · simp [hla]
      · simp only [hla, if_false, Bool.false_eq_true, List.mem_filter,
          Option.some.injEq, forall_eq', List.contains, List.elem_eq_mem, decide_eq_true_eq]
        try tauto
    · by_cases hla : la.isEmpty <;> by_cases hld : ld.isEmpty <;>
        simp only [hla, hld, if_true, if_false, Bool.false_eq_true, List.mem_filter,
          Option.some.injEq, forall_eq', List.contains, List.elem_eq_mem, decide_eq_true_eq,
          Bool.not_eq_true', decide_eq_false_iff_not] <;>
        try tauto

theorem effectiveAllowedFlags_mem (parseIso : String → Option Int) (now : Int)
    (flags_global : List String) (st : PolicyState) (session_id : Option String)
    (matched : Option Rule) (f : String) :
    f ∈ effectiveAllowedFlags parseIso now flags_global st session_id matched ↔
      (f ∈ flags_global
       ∧ (∀ l, overlayFlagsNarrow parseIso now st session_id = some l → f ∈ l)
       ∧ (∀ l, ruleFlagsNarrow matched = some l → f ∈ l)
       ∧ (∀ l, ruleFlagsDeny matched = some l → f ∉ l)) := by
  rw [effectiveAllowedFlags_split, mem_ruleApply, mem_eff1Def]
  tauto

/-- C7 (amended): the effective allowed flag set of `evaluate_preflight` is
characterized by membership: a flag is effective iff it is global, survives
the overlay-profile narrowing when that narrowing is actually applied (the
profile's list must be nonempty — an empty list is skipped, not intersected),
survives the matched rule's `flagsAllowed` narrowing when that list is set
and nonempty, and is absent from the rule's `flagsDenied` when set and
nonempty.  Consequently the effective set is always a subset of the global
set, and attaching any matched rule can only shrink it or keep it equal,
never grow it. -/
theorem C7_effective_flags (parseIso : String → Option Int) (now : Int)
    (flags_global : List String) (st : PolicyState) (session_id : Option String)
    (matched : Option Rule) (f : String) :
    (f ∈ effectiveAllowedFlags parseIso now flags_global st session_id matched ↔
      (f ∈ flags_global
       ∧ (∀ l, overlayFlagsNarrow parseIso now st session_id = some l → f ∈ l)
       ∧ (∀ l, ruleFlagsNarrow matched = some l → f ∈ l)
       ∧ (∀ l, ruleFlagsDeny matched = some l → f ∉ l)))
    ∧ (f ∈ effectiveAllowedFlags parseIso now flags_global st session_id matched →
        f ∈ flags_global)
    ∧ (∀ r : Rule,
        f ∈ effectiveAllowedFlags parseIso now flags_global st session_id (some r) →
        f ∈ effectiveAllowedFlags parseIso now flags_global st session_id Option.none) := by
  refine ⟨effectiveAllowedFlags_mem parseIso now flags_global st session_id matched f,
    fun h => ((effectiveAllowedFlags_mem parseIso now flags_global st session_id
      matched f).mp h).1, fun r h => ?_⟩
  have h1 := (effectiveAllowedFlags_mem parseIso now flags_global st session_id
    (some r) f).mp h
  refine (effectiveAllowedFlags_mem parseIso now flags_global st session_id
    Option.none f).mpr ⟨h1.1, h1.2.1, ?_, ?_⟩
  · intro l hl; exact Option.noConfusion hl
  · intro l hl; exact Option.noConfusion hl

theorem C7_effective_flags_witness :
    "--a" ∈ effectiveAllowedFlags strToInt? 0 ["--a"] stEmptyProfileFlags
      (some "s") Option.none :=
  (C7_effective_flags strToInt? 0 ["--a"] stEmptyProfileFlags (some "s")
      Option.none "--a").1.mpr
    ⟨by decide,
     fun l hl => Option.noConfusion hl,
     fun l hl => Option.noConfusion hl,
     fun l hl => Option.noConfusion hl⟩

/-- C4: overlay resolution order.  Any overlay the resolver returns is a live
(session-matching, unexpired) overlay chosen by tier: it matches by `path`
selector, or by `scopeRoot`+`patterns` selector with no live path match
present, or it is session-wide with no live path or scope match present;
when the resolver returns nothing, no live overlay matches in any of the
three tiers.  Consequently, in the P7 scenario (a session holding both a
path-specific overlay with tight profile `B` on script X and a session-wide
overlay with generous profile `A`, in either list order), caps resolve to
`B`'s for X and to `A`'s for a script Y the path overlay does not cover. -/
theorem C4_overlay_resolution (parseIso : String → Option Int) (now : Int)
    (overlays : List OverlayS) (sid : String) (p : List String) :
    (∀ o, resolveOverlayS parseIso now overlays sid p = some o →
      o ∈ overlays.filter (fun u => u.sessionId == sid && overlaySUnexpired parseIso now u)
      ∧ (overlayPathSel o p = true
         ∨ (overlayScopeSel o p = true
            ∧ ∀ o' ∈ overlays.filter
                (fun u => u.sessionId == sid && overlaySUnexpired parseIso now u),
                overlayPathSel o' p = false)
         ∨ (overlaySessionWide o = true
            ∧ ∀ o' ∈ overlays.filter
                (fun u => u.sessionId == sid && overlaySUnexpired parseIso now u),
                overlayPathSel o' p = false ∧ overlayScopeSel o' p = false)))
    ∧ (resolveOverlayS parseIso now overlays sid p = Option.none →
        ∀ o' ∈ overlays.filter
            (fun u => u.sessionId == sid && overlaySUnexpired parseIso now u),
          overlayPathSel o' p = false ∧ overlayScopeSel o' p = false
            ∧ overlaySessionWide o' = false)
    ∧ overlaySCaps strToInt? 0 [oPathB, oWideA] profsAB "s"
        (resolveParts "/proj/x.sh") = some capsTight
    ∧ overlaySCaps strToInt? 0 [oWideA, oPathB] profsAB "s"
        (resolveParts "/proj/x.sh") = some capsTight
    ∧ overlaySCaps strToInt? 0 [oPathB, oWideA] profsAB "s"
        (resolveParts "/proj/y.sh") = some capsWide
    ∧ overlaySCaps strToInt? 0 [oWideA, oPathB] profsAB "s"
        (resolveParts "/proj/y.sh") = some capsWide := by
  refine ⟨?_, ?_, by decide, by decide, by decide, by decide⟩
  · intro o h
    simp only [resolveOverlayS] at h
    rcases h1 : (overlays.filter
        (fun u => u.sessionId == sid && overlaySUnexpired parseIso now u)).find?
        (fun o => overlayPathSel o p) with _ | o1 <;> simp only [h1] at h
    · rcases h2 : (overlays.filter
          (fun u => u.sessionId == sid && overlaySUnexpired parseIso now u)).find?
          (fun o => overlayScopeSel o p) with _ | o2 <;> simp only [h2] at h
      · refine ⟨List.mem_of_find?_eq_some h, Or.inr (Or.inr ⟨?_, ?_⟩)⟩
        · have hw := List.find?_some h
          simpa using hw
        · intro o' ho'
          exact ⟨by simpa using (List.find?_eq_none.mp h1) o' ho',
            by simpa using (List.find?_eq_none.mp h2) o' ho'⟩
      · cases h
        refine ⟨List.mem_of_find?_eq_some h2, Or.inr (Or.inl ⟨?_, ?_⟩)⟩
        · have hs := List.find?_some h2
          simpa using hs
        · intro o' ho'
          simpa using (List.find?_eq_none.mp h1) o' ho'
    · cases h
      refine ⟨List.mem_of_find?_eq_some h1, Or.inl ?_⟩
      have hp := List.find?_some h1
      simpa using hp
  · intro h o' ho'
    simp only [resolveOverlayS] at h
    rcases h1 : (overlays.filter
        (fun u => u.sessionId == sid && overlaySUnexpired parseIso now u)).find?
        (fun o => overlayPathSel o p) with _ | o1 <;> simp only [h1] at h
    · rcases h2 : (overlays.filter
          (fun u => u.sessionId == sid && overlaySUnexpired parseIso now u)).find?
          (fun o => overlayScopeSel o p) with _ | o2 <;> simp only [h2] at h
      · exact ⟨by simpa using (List.find?_eq_none.mp h1) o' ho',
          by simpa using (List.find?_eq_none.mp h2) o' ho',
          by simpa using (List.find?_eq_none.mp h) o' ho'⟩
      · exact Option.noConfusion h
    · exact Option.noConfusion h

theorem C4_overlay_resolution_witness :
    oPathB ∈ [oPathB, oWideA].filter
        (fun u => u.sessionId == "s" && overlaySUnexpired strToInt? 0 u)
      ∧ overlayPathSel oPathB (resolveParts "/proj/x.sh") = true :=
  have h := (C4_overlay_resolution strToInt? 0 [oPathB, oWideA] "s"
      (resolveParts "/proj/x.sh")).1 oPathB (by decide)
  ⟨h.1, by
    rcases h.2 with hp | hs | hw
    · exact hp
    · exact absurd hs.1 (by decide)
    · exact absurd hw.1 (by decide)⟩

theorem require_pref_ok_none_iff (env : GateEnv) (sess : Option String)
    (path : String) (args : List String) (hon : enforceOn env = true) :
    require_pref_ok env sess path args = Option.none ↔
      ∃ k t, pref_key sess path args = some k ∧ env.prefCache.lookup k = some t
        ∧ env.nowMs - t ≤ env.prefTtlSec * 1000 := by
  simp only [require_pref_ok, hon, Bool.not_true, Bool.false_eq_true, if_false]
  rcases hk : pref_key sess path args with _ | k <;> simp only [hk]
  · simp
  · rcases hl : env.prefCache.lookup k with _ | t <;> simp only [hl]
    · refine iff_of_false (by simp) ?_
      rintro ⟨k', t', hk', hl', hle⟩
      rw [Option.some.injEq] at hk'
      subst hk'
      rw [hl] at hl'
      exact Option.noConfusion hl'
    · by_cases ht : env.nowMs - t > env.prefTtlSec * 1000
      · refine iff_of_false (by simp [ht]) ?_
        rintro ⟨k', t', hk', hl', hle⟩
        rw [Option.some.injEq] at hk'
        subst hk'
        rw [hl, Option.some.injEq] at hl'
        subst hl'
        omega
      · simp only [ht, if_false]
        exact iff_of_true (by simp) ⟨k, t, rfl, hl, by omega⟩

theorem enforce_preflight_pass_iff (env : GateEnv) (path : String)
    (args : List String) (tok : Option String) (override_session_id : Option String)
    (hon : enforceOn env = true)
    (hv : (verify_preflight_token env.secret env.nowTs tok path args).ok = false) :
    enforce_preflight env path args tok override_session_id = Option.none ↔
      require_pref_ok env (session_id_of env override_session_id) path args
        = Option.none := by
  simp only [enforce_preflight, hon, Bool.not_true, Bool.false_eq_true, if_false, hv,
    session_id_of]
  rcases override_session_id with _ | s
  · rcases hr : require_pref_ok env env.headerSession path args with _ | e <;>
      simp [hr]
  · by_cases hs : s == "" <;> simp only [hs, if_true, if_false, Bool.false_eq_true]
    · rcases hr : require_pref_ok env env.headerSession path args with _ | e <;>
        simp [hr]
    · rcases hr : require_pref_ok env (some s) path args with _ | e <;>
        simp [hr]

/-- C5: the execution gate.  With enforcement off it admits every request.
With enforcement on it admits a request exactly when the supplied preflight
token verifies, or the legacy session cache holds an entry for the derived
`(sessionId, path, args)` key that is within its TTL window.  Every denial
it returns is a structured `E_POLICY` error carrying the admin remediation
link, a `preflight_required` message and a nonempty response template. -/
theorem C5_gate (env : GateEnv) (path : String) (args : List String)
    (tok : Option String) (override_session_id : Option String) :
    (enforceOn env = false →
      enforce_preflight env path args tok override_session_id = Option.none)
    ∧ (enforceOn env = true →
        (enforce_preflight env path args tok override_session_id = Option.none ↔
          ((verify_preflight_token env.secret env.nowTs tok path args).ok = true
           ∨ ∃ k t, pref_key (session_id_of env override_session_id) path args = some k
               ∧ env.prefCache.lookup k = some t
               ∧ env.nowMs - t ≤ env.prefTtlSec * 1000)))
    ∧ (∀ e, enforce_preflight env path args tok override_session_id = some e →
        e.error = "E_POLICY"
        ∧ e.adminLink = some (admin_link env path)
        ∧ (∃ r, e.message = "preflight_required: " ++ r)
        ∧ e.responseTemplate.isSome = true) := by
  refine ⟨fun hoff => by simp [enforce_preflight, hoff], fun hon => ?_, fun e he => ?_⟩
  · by_cases hv : (verify_preflight_token env.secret env.nowTs tok path args).ok
    · simp only [hv, true_or, iff_true]
      simp [enforce_preflight, hon, hv]
    · rw [enforce_preflight_pass_iff env path args tok override_session_id hon
        (by simpa using hv)]
      rw [require_pref_ok_none_iff env (session_id_of env override_session_id)
        path args hon]
      simp [hv]
  · by_cases hon : enforceOn env
    · by_cases hv : (verify_preflight_token env.secret env.nowTs tok path args).ok
      · simp [enforce_preflight, hon, hv] at he
      · simp only [enforce_preflight, hon, Bool.not_true, Bool.false_eq_true, if_false,
          hv] at he
        rcases override_session_id with _ | s
        · rcases hr : require_pref_ok env env.headerSession path args with _ | errPref
          · rw [hr] at he
            exact Option.noConfusion he
          · rw [hr] at he
            injection he with he
            subst he
            exact ⟨rfl, rfl, ⟨_, rfl⟩, rfl⟩
        · by_cases hs : s == ""
          · simp only [hs, if_true] at he
            rcases hr : require_pref_ok env env.headerSession path args with _ | errPref
            · rw [hr] at he
              exact Option.noConfusion he
            · rw [hr] at he
              injection he with he
              subst he
              exact ⟨rfl, rfl, ⟨_, rfl⟩, rfl⟩
          · simp only [hs, if_false, Bool.false_eq_true] at he
            rcases hr : require_pref_ok env (some s) path args with _ | errPref
            · rw [hr] at he
              exact Option.noConfusion he
            · rw [hr] at he
              injection he with he
              subst he
              exact ⟨rfl, rfl, ⟨_, rfl⟩, rfl⟩
    · simp [enforce_preflight, hon] at he

theorem C5_gate_witness :
    enforceOn envC5W = true
    ∧ enforce_preflight envC5W "/a" [] Option.none (some "s") = Option.none :=
  ⟨by decide,
   ((C5_gate envC5W "/a" [] Option.none (some "s")).2.1 (by decide)).mpr
     (Or.inr ⟨"s:::/a:::", 5, by decide, by decide, by decide⟩)⟩

set_option maxRecDepth 20000

/-- C2: `verify_preflight_token` outcomes.  A missing or empty token is
`missing`; a token that does not split into three dot-segments is `invalid`;
a three-segment token whose recomputed HMAC-SHA256 signature differs is
`invalid`; for a token issued by `make_preflight_token`, verification is
`expired` past `iat + ttl`, `mismatch` when the bound normalized path or
args-hash differs from the current request (path checked before args), and
`ok` exactly when all three checks pass; `ok` is only ever returned when a
well-formed signature, expiry and binding all pass; and in particular a
token made for `/a/b.sh ['--x']` verifies `ok` with the same arguments and
`mismatch` with `['--y']`. -/
theorem C2_verify_token (secret : List Nat) (iat ttl now2 : Int) (t path path2 : String)
    (args args2 : List String) :
    (verify_preflight_token secret now2 Option.none path args
      = { ok := false, reason := some "missing" })
    ∧ (verify_preflight_token secret now2 (some "") path args
      = { ok := false, reason := some "missing" })
    ∧ (t ≠ "" → (splitDot t.data).length ≠ 3 →
        verify_preflight_token secret now2 (some t) path args
          = { ok := false, reason := some "invalid" })
    ∧ (∀ hB pB sB, t ≠ "" → splitDot t.data = [hB, pB, sB] →
        ((b64url (hmacSha256 secret (utf8Enc (hB ++ '.' :: pB)))).data == sB) = false →
        verify_preflight_token secret now2 (some t) path args
          = { ok := false, reason := some "invalid" })
    ∧ (now2 > iat + ttl →
        verify_preflight_token secret now2
            (some (make_preflight_token secret iat ttl path args)) path2 args2
          = { ok := false, reason := some "expired" })
    ∧ (¬ now2 > iat + ttl → normalize_path path2 ≠ normalize_path path →
        verify_preflight_token secret now2
            (some (make_preflight_token secret iat ttl path args)) path2 args2
          = { ok := false, reason := some "mismatch" })
    ∧ (¬ now2 > iat + ttl → normalize_path path2 = normalize_path path →
        args_hash args2 ≠ args_hash args →
        verify_preflight_token secret now2
            (some (make_preflight_token secret iat ttl path args)) path2 args2
          = { ok := false, reason := some "mismatch" })
    ∧ (¬ now2 > iat + ttl →
        verify_preflight_token secret now2
            (some (make_preflight_token secret iat ttl path args)) path args
          = { ok := true })
    ∧ (verify_preflight_token secret now2 (some t) path args = { ok := true } →
        ∃ hB pB sB pl, splitDot t.data = [hB, pB, sB] ∧
          ((b64url (hmacSha256 secret (utf8Enc (hB ++ '.' :: pB)))).data == sB) = true ∧
          ((b64padDecode (String.mk pB)).bind (fun bytes => (utf8Dec bytes).bind parsePayload))
            = some pl ∧
          ¬(now2 > pl.exp) ∧ normalize_path path = pl.p ∧ args_hash args = pl.ah)
    ∧ (verify_preflight_token secret 0
        (some (make_preflight_token secret 0 600 "/a/b.sh" ["--x"])) "/a/b.sh" ["--x"]
      = { ok := true })
    ∧ (verify_preflight_token secret 0
        (some (make_preflight_token secret 0 600 "/a/b.sh" ["--x"])) "/a/b.sh" ["--y"]
      = { ok := false, reason := some "mismatch" }) := by
  refine ⟨verify_none_missing secret now2 path args,
    verify_empty_missing secret now2 path args,
    fun hne hs => verify_badsplit_invalid secret now2 t path args hne hs,
    fun hB pB sB hne hsp hsg => verify_badsig_invalid secret now2 t path args hB pB sB
      hne hsp hsg,
    ?_, ?_, ?_, ?_,
    fun h => verify_ok_only_if secret now2 t path args h, ?_, ?_⟩
  · intro hexp
    rw [verify_make_eval, if_pos hexp]
  · intro hexp hp
    rw [verify_make_eval, if_neg hexp, if_pos (by simp [hp])]
  · intro hexp hp ha
    rw [verify_make_eval, if_neg hexp, if_neg (by simp [hp]), if_pos (by simp [ha])]
  · intro hexp
    rw [verify_make_eval, if_neg hexp, if_neg (by simp), if_neg (by simp)]
  · rw [verify_make_eval, if_neg (by omega), if_neg (by simp), if_neg (by simp)]
  · rw [verify_make_eval, if_neg (by omega), if_neg (by simp),
      if_pos (by simp; decide)]

theorem C2_verify_token_witness :
    verify_preflight_token [] 0
        (some (make_preflight_token [] 0 600 "/a/b.sh" ["--x"])) "/a/b.sh" ["--x"]
      = { ok := true }
    ∧ verify_preflight_token [] 0
        (some (make_preflight_token [] 0 600 "/a/b.sh" ["--x"])) "/a/b.sh" ["--y"]
      = { ok := false, reason := some "mismatch" } :=
  have h := C2_verify_token [] 0 600 0 "x" "/a/b.sh" "/a/b.sh" ["--x"] ["--y"]
  ⟨h.2.2.2.2.2.2.2.1 (by decide), h.2.2.2.2.2.2.2.2.2.2⟩

end TSM
